import Mathlib

/-!
# The mid-end of pie-c: pass orchestration, its supporting classes, the IR builder

A shallow embedding of

* `backends/bmv2/midend.cpp`   (`MidEnd::processP4_14`, `MidEnd::processP4_16`,
  `MidEnd::process`, `EnumOn32Bits::convert`),
* `frontends/p4/methodInstance.h`   (the constructors of `MethodInstance` and of its
  five subclasses),
* `midend/simplifyKey.h`   (the three statement handlers of `SimplifyKey`),
* `backends/pie/llvm-ir.cpp`   (the member functions of `PieIrBuilder`).

A C++ pointer is an `Option`; `none` is `nullptr`.  The individual passes, the
error counter and the evaluator queries are not defined in these files: they
are the fields of `Collaborators`, about which nothing is assumed.
-/

namespace BMV2

/-! ## Pass objects -/

/-- The member function of `MidEnd` whose activation owns a local object
(`evaluator`, the work-lists). -/
inductive Fn
  | processP4_14
  | processP4_16
  | process
  deriving DecidableEq, Repr

/-- The visitor classes instantiated in `midend.cpp`. -/
inductive PassKind
  | TypeChecking
  | Evaluator
  | DiscoverInlining
  | InlineDriver
  | RemoveAllUnusedDeclarations
  | DiscoverActionsInlining
  | InlineActionsDriver
  | ConvertEnums
  | ResetHeaders
  | UniqueNames
  | MoveDeclarations
  | ResolveReferences
  | RemoveReturns
  | MoveConstructors
  | LocalizeAllActions
  | UniqueParameters
  | SimplifyControlFlow
  | RemoveParameters
  | SimplifyKey
  | ConstantFolding
  | StrengthReduction
  | LocalCopyPropagation
  | SynthesizeActions
  | MoveActionsToTables
  | RemoveLeftSlices
  | LowerExpressions
  deriving DecidableEq, Repr

/-- The inliner objects handed to the two driver passes. -/
inductive Inliner
  | SimpleControlsInliner
  | SimpleActionsInliner
  | GeneralInliner
  | ActionsInliner
  deriving DecidableEq, Repr

/-- A constructor argument of a pass. -/
inductive Arg
  /-- `&refMap` -/
  | refMap
  /-- `&typeMap` -/
  | typeMap
  /-- a `bool` argument (`isv1`, or the literal `true` / `false`) -/
  | flag (b : Bool)
  /-- the pointer `evaluator` of the given function -/
  | evaluator (owner : Fn)
  /-- the address of the local `P4::InlineWorkList` of the given function
  (`controlsToInline` in `processP4_14`, `toInline` in `processP4_16`) -/
  | inlineWorkList (owner : Fn)
  /-- the address of the local `P4::ActionsInlineList` of the given function
  (`actionsToInline` in both) -/
  | actionsInlineList (owner : Fn)
  /-- a freshly allocated inliner -/
  | inliner (i : Inliner)
  /-- `new EnumOn32Bits()` -/
  | enumOn32Bits
  /-- `new P4::NonLeftValue(&refMap, &typeMap)` -/
  | nonLeftValue
  deriving DecidableEq, Repr

/-- One element of a `PassManager` initializer list. -/
inductive Pass
  /-- `new P4::Kind(args...)` (for `LowerExpressions`: `new Kind(args...)`) written in the list -/
  | fresh (kind : PassKind) (args : List Arg)
  /-- the local `evaluator` of the given function, which was initialised by
  `new P4::Evaluator(&refMap, &typeMap)` -/
  | evaluator (owner : Fn)
  deriving DecidableEq, Repr

/-- The class of a pass object. -/
def Pass.kind : Pass → PassKind
  | .fresh k _ => k
  | .evaluator _ => .Evaluator

/-- The constructor arguments of a pass object. -/
def Pass.args : Pass → List Arg
  | .fresh _ as => as
  | .evaluator _ => [.refMap, .typeMap]

/-- A `PassManager`: its initializer list and the name given by `setName`.
The debug hooks added by `addDebugHooks(hooks)` are not modelled. -/
structure PassManager where
  name : String
  passes : List Pass
  deriving DecidableEq, Repr

/-- The part of `CompilerOptions` that `midend.cpp` reads. -/
structure CompilerOptions where
  /-- `options.isv1()` -/
  isv1 : Bool
  deriving DecidableEq, Repr

/-! ## The four pass lists of `midend.cpp` -/

namespace MidEnd

/-- The `PassManager midend` of `processP4_14` (lines 55-66), named "V1MidEnd". -/
def midend : PassManager :=
  let isv1 := true
  { name := "V1MidEnd"
    passes := [
      .fresh .TypeChecking [.refMap, .typeMap, .flag false, .flag isv1],
      .evaluator .processP4_14,
      .fresh .DiscoverInlining
        [.inlineWorkList .processP4_14, .refMap, .typeMap, .evaluator .processP4_14],
      .fresh .InlineDriver
        [.inlineWorkList .processP4_14, .inliner .SimpleControlsInliner, .flag isv1],
      .fresh .RemoveAllUnusedDeclarations [.refMap, .flag isv1],
      .fresh .TypeChecking [.refMap, .typeMap, .flag false, .flag isv1],
      .fresh .DiscoverActionsInlining [.actionsInlineList .processP4_14, .refMap, .typeMap],
      .fresh .InlineActionsDriver
        [.actionsInlineList .processP4_14, .inliner .SimpleActionsInliner, .flag isv1],
      .fresh .RemoveAllUnusedDeclarations [.refMap, .flag isv1] ] }

/-- The `PassManager simplify` of `processP4_16` (lines 96-116), named "Simplify". -/
def simplify (isv1 : Bool) : PassManager :=
  { name := "Simplify"
    passes := [
      .fresh .TypeChecking [.refMap, .typeMap, .flag false, .flag isv1],
      .fresh .ConvertEnums [.enumOn32Bits, .typeMap],
      .fresh .TypeChecking [.refMap, .typeMap, .flag true, .flag isv1],
      .fresh .ResetHeaders [.typeMap],
      .fresh .UniqueNames [.refMap, .flag isv1],
      .fresh .MoveDeclarations [],
      .fresh .ResolveReferences [.refMap, .flag isv1],
      .fresh .RemoveReturns [.refMap],
      .fresh .MoveConstructors [.refMap, .flag isv1],
      .fresh .RemoveAllUnusedDeclarations [.refMap, .flag isv1],
      .fresh .TypeChecking [.refMap, .typeMap, .flag true, .flag isv1],
      .evaluator .processP4_16 ] }

/-- The `PassManager midEnd` of `processP4_16` (lines 128-170), named "MidEnd". -/
def midEnd (isv1 : Bool) : PassManager :=
  { name := "MidEnd"
    passes := [
      .fresh .DiscoverInlining
        [.inlineWorkList .processP4_16, .refMap, .typeMap, .evaluator .processP4_16],
      .fresh .InlineDriver [.inlineWorkList .processP4_16, .inliner .GeneralInliner, .flag isv1],
      .fresh .RemoveAllUnusedDeclarations [.refMap, .flag isv1],
      .fresh .TypeChecking [.refMap, .typeMap, .flag false, .flag isv1],
      .fresh .DiscoverActionsInlining [.actionsInlineList .processP4_16, .refMap, .typeMap],
      .fresh .InlineActionsDriver
        [.actionsInlineList .processP4_16, .inliner .ActionsInliner, .flag isv1],
      .fresh .RemoveAllUnusedDeclarations [.refMap, .flag isv1],
      .fresh .LocalizeAllActions [.refMap, .flag isv1],
      .fresh .RemoveAllUnusedDeclarations [.refMap, .flag isv1],
      .fresh .UniqueParameters [.refMap, .flag isv1],
      .fresh .TypeChecking [.refMap, .typeMap, .flag true, .flag isv1],
      .fresh .SimplifyControlFlow [.refMap, .typeMap],
      .fresh .RemoveParameters [.refMap, .typeMap, .flag isv1],
      .fresh .TypeChecking [.refMap, .typeMap, .flag true, .flag isv1],
      .fresh .SimplifyKey [.refMap, .typeMap, .nonLeftValue],
      .fresh .TypeChecking [.refMap, .typeMap, .flag false, .flag isv1],
      .fresh .SimplifyControlFlow [.refMap, .typeMap],
      .fresh .TypeChecking [.refMap, .typeMap, .flag false, .flag isv1],
      .fresh .ConstantFolding [.refMap, .typeMap],
      .fresh .StrengthReduction [],
      .fresh .TypeChecking [.refMap, .typeMap, .flag false, .flag isv1],
      .fresh .LocalCopyPropagation [.typeMap],
      .fresh .MoveDeclarations [],
      .fresh .TypeChecking [.refMap, .typeMap, .flag false, .flag isv1],
      .fresh .SynthesizeActions [.refMap, .typeMap],
      .fresh .TypeChecking [.refMap, .typeMap, .flag false, .flag isv1],
      .fresh .MoveActionsToTables [.refMap, .typeMap] ] }

/-- The `PassManager backend` of `process` (lines 192-205), named "Backend". -/
def backend (isv1 : Bool) : PassManager :=
  { name := "Backend"
    passes := [
      .fresh .TypeChecking [.refMap, .typeMap, .flag false, .flag isv1],
      .fresh .SimplifyControlFlow [.refMap, .typeMap],
      .fresh .TypeChecking [.refMap, .typeMap, .flag false, .flag isv1],
      .fresh .RemoveLeftSlices [.typeMap],
      .fresh .TypeChecking [.refMap, .typeMap, .flag false, .flag isv1],
      .fresh .LowerExpressions [.typeMap],
      .fresh .TypeChecking [.refMap, .typeMap, .flag false, .flag isv1],
      .fresh .ConstantFolding [.refMap, .typeMap],
      .fresh .TypeChecking [.refMap, .typeMap, .flag false, .flag isv1],
      .evaluator .process ] }

end MidEnd

/-! ## Running the pipelines -/

/-- Everything `midend.cpp` uses without defining it.  `Heap` is all mutable
state outside the program tree: the error counter, `refMap`, `typeMap`, the
work-lists and the evaluator objects. -/
structure Collaborators (Prog Block Main Heap : Type) where
  /-- `::errorCount()` -/
  errorCount : Heap → Nat
  /-- `program->apply(*pass)` for a single pass -/
  visit : Pass → Prog → Heap → Prog × Heap
  /-- `evaluator->getToplevelBlock()` for the evaluator of the given function -/
  getToplevelBlock : Fn → Heap → Option Block
  /-- `toplevel->getMain()` -/
  getMain : Block → Option Main

/-- The heap together with a record of every pass applied so far, each tagged
with the name of the pipeline that applied it.  The record is ghost state: no
code reads it. -/
structure World (Heap : Type) where
  heap : Heap
  applied : List (String × Pass)

/-- How a call ends: it returns a value, or it dereferences a null pointer. -/
inductive Outcome (α W : Type)
  | nullDeref (w : W)
  | ret (value : α) (w : W)

variable {Prog Block Main Heap : Type}

/-- Modelled from the spec: `PassManager::apply_visitor` (ir/pass_manager.cpp
is not among the sources).  Section 4.2: run the passes in order; after each
pass check the error counter; if it is nonzero the pipeline stops and the
result is "no program".  Each pass run is appended to the ghost record. -/
def PassManager.run (c : Collaborators Prog Block Main Heap) (name : String) :
    List Pass → Prog → World Heap → Option Prog × World Heap
  | [], program, w => (some program, w)
  | p :: rest, program, w =>
    let r := c.visit p program w.heap
    let w1 : World Heap := { heap := r.2, applied := w.applied ++ [(name, p)] }
    if c.errorCount r.2 > 0 then (none, w1)
    else PassManager.run c name rest r.1 w1

/-- The call `program->apply(pm)`. -/
def PassManager.apply (c : Collaborators Prog Block Main Heap) (pm : PassManager)
    (program : Prog) (w : World Heap) : Option Prog × World Heap :=
  PassManager.run c pm.name pm.passes program w

namespace MidEnd

/-- `MidEnd::processP4_14` (lines 45-72). -/
def processP4_14 (c : Collaborators Prog Block Main Heap) (_options : CompilerOptions)
    (program : Prog) (w : World Heap) : Outcome (Option Prog) (World Heap) :=
  let r := midend.apply c program w
  if c.errorCount r.2.heap > 0 then .ret none r.2
  else .ret r.1 r.2

/-- `MidEnd::processP4_16` (lines 91-176). -/
def processP4_16 (c : Collaborators Prog Block Main Heap) (options : CompilerOptions)
    (program : Prog) (w : World Heap) : Outcome (Option Prog) (World Heap) :=
  let isv1 := options.isv1
  let r := (simplify isv1).apply c program w
  if c.errorCount r.2.heap > 0 then .ret none r.2
  else
    match c.getToplevelBlock .processP4_16 r.2.heap with
    | none => .nullDeref r.2
    | some toplevel =>
      match c.getMain toplevel with
      | none => .ret none r.2
      | some _ =>
        match r.1 with
        | none => .nullDeref r.2
        | some program =>
          let r := (midEnd isv1).apply c program r.2
          if c.errorCount r.2.heap > 0 then .ret none r.2
          else .ret r.1 r.2

/-- `MidEnd::process` (lines 179-213). -/
def process (c : Collaborators Prog Block Main Heap) (options : CompilerOptions)
    (program : Prog) (w : World Heap) : Outcome (Option Block) (World Heap) :=
  let isv1 := options.isv1
  let r := if isv1 then processP4_14 c options program w
           else processP4_16 c options program w
  match r with
  | .nullDeref w => .nullDeref w
  | .ret none w => .ret none w
  | .ret (some program) w =>
    let r := (backend isv1).apply c program w
    if c.errorCount r.2.heap > 0 then .ret none r.2
    else .ret (c.getToplevelBlock .process r.2.heap) r.2

end MidEnd

/-! ## Vocabulary for statements about runs -/

/-- The passes visit the tree one after the other, with no check in between. -/
def visitAll (c : Collaborators Prog Block Main Heap) :
    List Pass → Prog → Heap → Prog × Heap
  | [], program, h => (program, h)
  | p :: rest, program, h => visitAll c rest (c.visit p program h).1 (c.visit p program h).2

/-- The error count is zero after every one of the passes, visiting in order. -/
def staysZero (c : Collaborators Prog Block Main Heap) :
    List Pass → Prog → Heap → Bool
  | [], _, _ => true
  | p :: rest, program, h =>
    c.errorCount (c.visit p program h).2 == 0 &&
      staysZero c rest (c.visit p program h).1 (c.visit p program h).2

/-- The record entries of a pipeline all of whose passes ran. -/
def PassManager.entries (pm : PassManager) : List (String × Pass) :=
  pm.passes.map fun p => (pm.name, p)

/-- Between the worlds `w` and `w1` passes were applied by the named pipelines
only: the record of `w1` is that of `w` followed by entries with these names. -/
def World.ranOnly (names : List String) (w w1 : World Heap) : Prop :=
  ∃ t, w1.applied = w.applied ++ t ∧ ∀ e ∈ t, e.1 ∈ names

namespace MidEnd

/-- Program and heap once the passes of Simplify have visited `program` in order. -/
def afterSimplify (c : Collaborators Prog Block Main Heap) (isv1 : Bool) (program : Prog)
    (h : Heap) : Prog × Heap :=
  visitAll c (simplify isv1).passes program h

/-- Program and heap once the passes of MidEnd have visited, in order, the
program that Simplify produced. -/
def afterMidEnd (c : Collaborators Prog Block Main Heap) (isv1 : Bool) (program : Prog)
    (h : Heap) : Prog × Heap :=
  visitAll c (midEnd isv1).passes (afterSimplify c isv1 program h).1
    (afterSimplify c isv1 program h).2

/-- Program and heap once the passes of Backend other than its last one, the
evaluator, have visited, in order, the program that MidEnd produced. -/
def beforeEvaluator (c : Collaborators Prog Block Main Heap) (isv1 : Bool) (program : Prog)
    (h : Heap) : Prog × Heap :=
  visitAll c (backend isv1).passes.dropLast (afterMidEnd c isv1 program h).1
    (afterMidEnd c isv1 program h).2

/-- Program and heap once all the passes of Backend have visited, in order, the
program that MidEnd produced. -/
def afterBackend (c : Collaborators Prog Block Main Heap) (isv1 : Bool) (program : Prog)
    (h : Heap) : Prog × Heap :=
  visitAll c (backend isv1).passes (afterMidEnd c isv1 program h).1
    (afterMidEnd c isv1 program h).2

end MidEnd

/-! ## Vocabulary for statements about pass lists -/

/-- The passes that change type-relevant structure: renaming (`UniqueNames`,
`UniqueParameters`), moving declarations, removing returns, synthesizing
actions. -/
def PassKind.changesTypeStructure : PassKind → Bool
  | .UniqueNames => true
  | .UniqueParameters => true
  | .MoveDeclarations => true
  | .RemoveReturns => true
  | .SynthesizeActions => true
  | _ => false

/-- The two inline driver passes. -/
def PassKind.isInlineDriver : PassKind → Bool
  | .InlineDriver => true
  | .InlineActionsDriver => true
  | _ => false

/-- The kind of the pass at position `i` of a list, if there is one. -/
def kindAt (l : List Pass) (i : Nat) : Option PassKind :=
  l[i]?.map Pass.kind

/-- Every pass of the list that changes type-relevant structure has a
`TypeChecking` pass as its immediate successor. -/
def TypeCheckedAtOnce (l : List Pass) : Prop :=
  ∀ i k, kindAt l i = some k → k.changesTypeStructure = true →
    kindAt l (i + 1) = some .TypeChecking

/-- Every pass of the list that changes type-relevant structure has a
`TypeChecking` pass somewhere after it in the list. -/
def TypeCheckedLater (l : List Pass) : Prop :=
  ∀ i k, kindAt l i = some k → k.changesTypeStructure = true →
    ∃ j, i < j ∧ kindAt l j = some .TypeChecking

/-- After every inline driver pass of the list the next pass is
`RemoveAllUnusedDeclarations` and the one after that is `TypeChecking`. -/
def CleanedThenTypeChecked (l : List Pass) : Prop :=
  ∀ i k, kindAt l i = some k → k.isInlineDriver = true →
    kindAt l (i + 1) = some .RemoveAllUnusedDeclarations ∧
      kindAt l (i + 2) = some .TypeChecking

/-- After every inline driver pass of the list the next pass is
`RemoveAllUnusedDeclarations`. -/
def CleanedAfterDriver (l : List Pass) : Prop :=
  ∀ i k, kindAt l i = some k → k.isInlineDriver = true →
    kindAt l (i + 1) = some .RemoveAllUnusedDeclarations

/-- The inline passes of a list are two adjacent discovery/driver pairs, the
control pair before the action pair: the list is `pre`, `DiscoverInlining` and
`InlineDriver` constructed over one `InlineWorkList`, `mid`,
`DiscoverActionsInlining` and `InlineActionsDriver` constructed over one
`ActionsInlineList`, `post`; no pass of `pre`, `mid`, `post` is an inline driver
or receives either work-list, and neither pair receives the other's. -/
def InlinePairsInOrder (l : List Pass) : Prop :=
  ∃ (pre mid post : List Pass) (controls actions : Fn) (a1 a2 a3 a4 : List Arg),
    l = pre ++ [.fresh .DiscoverInlining (.inlineWorkList controls :: a1),
                .fresh .InlineDriver (.inlineWorkList controls :: a2)] ++ mid ++
          [.fresh .DiscoverActionsInlining (.actionsInlineList actions :: a3),
           .fresh .InlineActionsDriver (.actionsInlineList actions :: a4)] ++ post ∧
    (∀ p ∈ pre ++ mid ++ post, p.kind.isInlineDriver = false ∧
      Arg.inlineWorkList controls ∉ p.args ∧ Arg.actionsInlineList actions ∉ p.args) ∧
    (∀ a ∈ a1 ++ a2, a ≠ .inlineWorkList controls ∧ a ≠ .actionsInlineList actions) ∧
    (∀ a ∈ a3 ++ a4, a ≠ .inlineWorkList controls ∧ a ≠ .actionsInlineList actions)

/-- The world in which a call ended. -/
def Outcome.world {α W : Type} : Outcome α W → W
  | .nullDeref w => w
  | .ret _ w => w

/-- Between the worlds `w` and `w1` the pass `first` was applied first, and after
it passes of the named pipelines only. -/
def World.ranFrom (first : String × Pass) (names : List String) (w w1 : World Heap) : Prop :=
  ∃ t, w1.applied = w.applied ++ first :: t ∧ ∀ e ∈ t, e.1 ∈ names

/-- The inliners among the constructor arguments of a pass. -/
def Pass.inliners (p : Pass) : List Inliner :=
  p.args.filterMap fun a => match a with
    | .inliner i => some i
    | _ => none

/-- The inline driver passes of a list, each with the inliners handed to it. -/
def driversWithInliners (l : List Pass) : List (PassKind × List Inliner) :=
  (l.filter fun p => p.kind.isInlineDriver).map fun p => (p.kind, p.inliners)

/-- Two constructor arguments are the same, or are both an inliner, or are the
same kind of object local to the function that builds the list (its
`InlineWorkList`, its `ActionsInlineList`, its `evaluator`). -/
def Arg.sameButInliner : Arg → Arg → Bool
  | .inliner _, .inliner _ => true
  | .inlineWorkList _, .inlineWorkList _ => true
  | .actionsInlineList _, .actionsInlineList _ => true
  | .evaluator _, .evaluator _ => true
  | a, b => decide (a = b)

/-- As `Arg.sameButInliner`, or the arguments are both a `bool`. -/
def Arg.sameButInlinerAndFlag : Arg → Arg → Bool
  | .flag _, .flag _ => true
  | a, b => Arg.sameButInliner a b

/-- The two lists have the same length and corresponding elements are related. -/
def allPairs {α : Type} (r : α → α → Bool) : List α → List α → Bool
  | [], [] => true
  | a :: as, b :: bs => r a b && allPairs r as bs
  | _, _ => false

/-- Two passes have the same class and, position by position, related arguments. -/
def Pass.sameBut (r : Arg → Arg → Bool) (p q : Pass) : Bool :=
  decide (p.kind = q.kind) && allPairs r p.args q.args

namespace MidEnd

/-- The inline passes of V1MidEnd: from `DiscoverInlining` to the last cleanup. -/
def inlinePasses14 : List Pass := midend.passes.drop 2

/-- The inline passes of MidEnd: from `DiscoverInlining` to the cleanup after
`InlineActionsDriver`. -/
def inlinePasses16 (isv1 : Bool) : List Pass := (midEnd isv1).passes.take 7

end MidEnd

/-! ## A small instance of the collaborators, for evaluating the definitions -/

namespace Toy

/-- The heap of the toy instance: the error counter and the block held by the
evaluator of each function. -/
structure Store where
  errors : Nat
  blocks : Fn → Option Nat

/-- One more error is counted when `bad` holds. -/
def Store.report (h : Store) (bad : Bool) : Store :=
  if bad then { h with errors := h.errors + 1 } else h

/-- The evaluator of `f` now holds the block `b`. -/
def Store.setBlock (h : Store) (f : Fn) (b : Nat) : Store :=
  { h with blocks := fun g => if g = f then some b else h.blocks g }

/-- Programs and blocks are numbers.  A pass reports an error when it meets the
program that names it: `ConvertEnums` on 1, `SimplifyKey` on 2,
`RemoveLeftSlices` on 3, `InlineDriver` on 4.  `LowerExpressions` adds 100 to the
program, an evaluator stores the program it visits as its block, every other
pass changes nothing. -/
def visit (p : Pass) (program : Nat) (h : Store) : Nat × Store :=
  match p with
  | .evaluator f => (program, h.setBlock f program)
  | .fresh .ConvertEnums _ => (program, h.report (program == 1))
  | .fresh .SimplifyKey _ => (program, h.report (program == 2))
  | .fresh .RemoveLeftSlices _ => (program, h.report (program == 3))
  | .fresh .InlineDriver _ => (program, h.report (program == 4))
  | .fresh .LowerExpressions _ => (program + 100, h)
  | .fresh _ _ => (program, h)

/-- The toy collaborators: a block has a main unless it is block 7. -/
def collaborators : Collaborators Nat Nat Unit Store where
  errorCount h := h.errors
  visit := visit
  getToplevelBlock f h := h.blocks f
  getMain b := if b = 7 then none else some ()

/-- The start of a run: no error, no block, nothing applied. -/
def start : World Store :=
  { heap := { errors := 0, blocks := fun _ => none }, applied := [] }

end Toy

/-! ## `EnumOn32Bits::convert` -/

/-- A position in the sources: what `getLineNumber()` returns. -/
structure SourcePosition where
  lineNumber : Nat
  deriving DecidableEq, Repr

/-- The `srcInfo` of a node: what `isValid()` and `getStart()` return. -/
structure SourceInfo where
  isValid : Bool
  getStart : SourcePosition
  deriving DecidableEq, Repr

/-- An `IR::Type_Enum`, as far as `convert` reads it. -/
structure Type_Enum where
  srcInfo : SourceInfo
  deriving DecidableEq, Repr

/-- What `getSourceLine` returns. -/
structure SourceFileLine where
  fileName : String
  sourceLine : Nat
  deriving DecidableEq, Repr

/-- The two globals that `convert` reads. -/
structure Sources where
  /-- `Util::InputSources::instance->getSourceLine(line)` -/
  getSourceLine : Nat → SourceFileLine
  /-- `P4V1::V1Model::instance.file.name` -/
  v1modelFileName : String

/-- Modelled from the spec: `cstring::endsWith` (lib/cstring.h is not among the
sources); the name "ends with" the suffix. -/
def cstring.endsWith (s suffix : String) : Bool :=
  suffix.data.isSuffixOf s.data

/-- `EnumOn32Bits::convert` (lines 75-85). -/
def EnumOn32Bits.convert (src : Sources) (type : Type_Enum) : Bool :=
  if type.srcInfo.isValid then
    let line := type.srcInfo.getStart.lineNumber
    let sfl := src.getSourceLine line
    let sourceFile := sfl.fileName
    if cstring.endsWith sourceFile src.v1modelFileName then
      -- Don't convert any of the standard enums
      false
    else true
  else true

/-- `EnumOn32Bits::enumSize` (lines 86-87). -/
def EnumOn32Bits.enumSize (_n : Nat) : Nat := 32

/-- The characters of `s` end with those of `suffix`. -/
def EndsWith (s suffix : String) : Prop :=
  ∃ front : List Char, s.data = front ++ suffix.data

/-- Sources in which lines 1 to 99 belong to the v1model library file and all
other lines to the user's program. -/
def Toy.sources : Sources where
  getSourceLine line :=
    if 1 ≤ line ∧ line < 100 then ⟨"/usr/share/p4c/p4include/v1model.p4", line⟩
    else ⟨"switch.p4", line - 99⟩
  v1modelFileName := "v1model.p4"

end BMV2

/-! ## `frontends/p4/methodInstance.h` and `midend/simplifyKey.h` -/

namespace P4

/-- An `IR::ParameterList`. -/
structure ParameterList where
  id : Nat
  deriving DecidableEq, Repr

/-- An `IR::Type_MethodBase` (also an `IR::Type_Method` or `IR::Type_Action`,
which derive from it), with its member `parameters`. -/
structure Type_MethodBase where
  id : Nat
  parameters : Option ParameterList
  deriving DecidableEq, Repr

/-- An `IR::MethodCallExpression`. -/
structure MethodCallExpression where
  id : Nat
  deriving DecidableEq, Repr

/-- An `IR::IDeclaration`. -/
structure IDeclaration where
  id : Nat
  deriving DecidableEq, Repr

/-- An `IR::IApply`, with what `getApplyMethodType()` returns. -/
structure IApply where
  id : Nat
  getApplyMethodType : Option Type_MethodBase
  deriving DecidableEq, Repr

/-- An `IR::Method`. -/
structure Method where
  id : Nat
  deriving DecidableEq, Repr

/-- An `IR::Type_Extern`. -/
structure Type_Extern where
  id : Nat
  deriving DecidableEq, Repr

/-- An `IR::P4Action`. -/
structure P4Action where
  id : Nat
  deriving DecidableEq, Repr

/-- An `IR::ID`. -/
structure ID where
  name : String
  deriving DecidableEq, Repr

/-- An `IR::Expression`: a method call expression or another one. -/
inductive Expression
  | methodCall (e : MethodCallExpression)
  | other (id : Nat)
  deriving DecidableEq, Repr

/-- How a constructor can fail. -/
inductive Failure
  /-- `CHECK_NULL` met a null pointer -/
  | nullCheck
  /-- a null pointer was dereferenced -/
  | nullDeref
  deriving DecidableEq, Repr

/-- Modelled from the spec: the macro `CHECK_NULL` (lib/null.h is not among the
sources), the null check by which a constructor rejects a null component. -/
def CHECK_NULL {α : Type} (a : Option α) : Except Failure Unit :=
  match a with
  | none => .error .nullCheck
  | some _ => .ok ()

/-- The data members of `MethodInstance` (lines 38-41). -/
structure MethodInstance where
  expr : Option MethodCallExpression
  object : Option IDeclaration
  methodType : Option Type_MethodBase
  deriving DecidableEq, Repr

/-- The constructor of `MethodInstance` (lines 31-35). -/
def MethodInstance.construct (mce : Option MethodCallExpression) (decl : Option IDeclaration)
    (methodType : Option Type_MethodBase) : Except Failure MethodInstance := do
  let this : MethodInstance := { expr := mce, object := decl, methodType := methodType }
  CHECK_NULL mce
  CHECK_NULL methodType
  pure this

/-- `MethodInstance::getParameters` (lines 56-57): `methodType->parameters`. -/
def MethodInstance.getParameters (m : MethodInstance) : Except Failure (Option ParameterList) :=
  match m.methodType with
  | none => .error .nullDeref
  | some t => .ok t.parameters

/-- The class `ApplyMethod` (lines 63-72). -/
structure ApplyMethod extends MethodInstance where
  type : Option IApply
  deriving DecidableEq, Repr

/-- The constructor of `ApplyMethod` (lines 64-67).  The argument of the base
constructor, `type->getApplyMethodType()`, is evaluated first. -/
def ApplyMethod.construct (expr : Option MethodCallExpression) (decl : Option IDeclaration)
    (type : Option IApply) : Except Failure ApplyMethod := do
  let methodType ← match type with
    | none => Except.error Failure.nullDeref
    | some t => pure t.getApplyMethodType
  let base ← MethodInstance.construct expr decl methodType
  let this : ApplyMethod := { toMethodInstance := base, type := type }
  CHECK_NULL type
  pure this

/-- The class `ExternMethod` (lines 75-85). -/
structure ExternMethod extends MethodInstance where
  method : Option Method
  type : Option Type_Extern
  deriving DecidableEq, Repr

/-- The constructor of `ExternMethod` (lines 76-80). -/
def ExternMethod.construct (expr : Option MethodCallExpression) (decl : Option IDeclaration)
    (method : Option Method) (type : Option Type_Extern)
    (methodType : Option Type_MethodBase) : Except Failure ExternMethod := do
  let base ← MethodInstance.construct expr decl methodType
  let this : ExternMethod := { toMethodInstance := base, method := method, type := type }
  CHECK_NULL method
  CHECK_NULL type
  pure this

/-- The class `ExternFunction` (lines 88-96). -/
structure ExternFunction extends MethodInstance where
  method : Option Method
  deriving DecidableEq, Repr

/-- The constructor of `ExternFunction` (lines 89-92). -/
def ExternFunction.construct (expr : Option MethodCallExpression) (method : Option Method)
    (methodType : Option Type_MethodBase) : Except Failure ExternFunction := do
  let base ← MethodInstance.construct expr none methodType
  let this : ExternFunction := { toMethodInstance := base, method := method }
  CHECK_NULL method
  pure this

/-- The class `ActionCall` (lines 99-107). -/
structure ActionCall extends MethodInstance where
  action : Option P4Action
  deriving DecidableEq, Repr

/-- The constructor of `ActionCall` (lines 100-103). -/
def ActionCall.construct (expr : Option MethodCallExpression) (action : Option P4Action)
    (actionType : Option Type_MethodBase) : Except Failure ActionCall := do
  let base ← MethodInstance.construct expr none actionType
  let this : ActionCall := { toMethodInstance := base, action := action }
  CHECK_NULL action
  pure this

/-- The class `BuiltInMethod` (lines 112-121). -/
structure BuiltInMethod extends MethodInstance where
  name : ID
  appliedTo : Option Expression
  deriving DecidableEq, Repr

/-- The constructor of `BuiltInMethod` (lines 114-117). -/
def BuiltInMethod.construct (expr : Option MethodCallExpression) (name : ID)
    (appliedTo : Option Expression) (methodType : Option Type_MethodBase) :
    Except Failure BuiltInMethod := do
  let base ← MethodInstance.construct expr none methodType
  let this : BuiltInMethod := { toMethodInstance := base, name := name, appliedTo := appliedTo }
  CHECK_NULL appliedTo
  pure this

/-! ### `SimplifyKey` -/

/-- An `IR::MethodCallStatement`, with its member `methodCall`. -/
structure MethodCallStatement where
  id : Nat
  methodCall : Option MethodCallExpression
  deriving DecidableEq, Repr

/-- An `IR::IfStatement`, with its member `condition`. -/
structure IfStatement where
  id : Nat
  condition : Option Expression
  deriving DecidableEq, Repr

/-- An `IR::SwitchStatement`, with its member `expression`. -/
structure SwitchStatement where
  id : Nat
  expression : Option Expression
  deriving DecidableEq, Repr

/-- A pointer to `IR::Statement` that points to one of the three statement
classes for which `SimplifyKey` has a handler. -/
inductive Statement
  | methodCallStatement (s : MethodCallStatement)
  | ifStatement (s : IfStatement)
  | switchStatement (s : SwitchStatement)
  deriving DecidableEq, Repr

/-- The conversion of a `MethodCallExpression` pointer to an `Expression` pointer. -/
def MethodCallExpression.toExpression (e : Option MethodCallExpression) : Option Expression :=
  e.map Expression.methodCall

/-- `SimplifyKey::doStatement` is declared in `simplifyKey.h` (line 62) and
defined elsewhere: a function of the statement, the expression and the state of
the visitor, giving a node and a new state. -/
abbrev DoStatement (State Node : Type) : Type :=
  Statement → Option Expression → State → Node × State

/-- `SimplifyKey::postorder(IR::MethodCallStatement*)` (lines 66-67). -/
def SimplifyKey.postorder_MethodCallStatement {State Node : Type}
    (doStatement : DoStatement State Node) (statement : MethodCallStatement) (st : State) :
    Node × State :=
  doStatement (.methodCallStatement statement)
    (MethodCallExpression.toExpression statement.methodCall) st

/-- `SimplifyKey::postorder(IR::IfStatement*)` (lines 68-69). -/
def SimplifyKey.postorder_IfStatement {State Node : Type}
    (doStatement : DoStatement State Node) (statement : IfStatement) (st : State) :
    Node × State :=
  doStatement (.ifStatement statement) statement.condition st

/-- `SimplifyKey::postorder(IR::SwitchStatement*)` (lines 70-71). -/
def SimplifyKey.postorder_SwitchStatement {State Node : Type}
    (doStatement : DoStatement State Node) (statement : SwitchStatement) (st : State) :
    Node × State :=
  doStatement (.switchStatement statement) statement.expression st

/-- The choice among the three overloads of `postorder` by the class of the
statement visited. -/
def SimplifyKey.postorder {State Node : Type} (doStatement : DoStatement State Node) :
    Statement → State → Node × State
  | .methodCallStatement s => SimplifyKey.postorder_MethodCallStatement doStatement s
  | .ifStatement s => SimplifyKey.postorder_IfStatement doStatement s
  | .switchStatement s => SimplifyKey.postorder_SwitchStatement doStatement s

/-- The expression that guards a statement: the `methodCall` of a method call
statement, the `condition` of an `if`, the `expression` of a `switch`. -/
def Statement.guard : Statement → Option Expression
  | .methodCallStatement s => MethodCallExpression.toExpression s.methodCall
  | .ifStatement s => s.condition
  | .switchStatement s => s.expression

/-- The specification of the handlers, in the words of section 4.6: the three
statement kinds are visited uniformly through the one hoist-before-this-statement
hook, applied to the statement and its guard. -/
def SimplifyKey.uniformHook {State Node : Type} (doStatement : DoStatement State Node)
    (statement : Statement) (st : State) : Node × State :=
  doStatement statement statement.guard st

end P4

/-! ## `backends/pie/llvm-ir.cpp` -/

namespace pie

/-- An instruction of the entry block of the function `main` that the builder
fills. -/
inductive Inst
  /-- `builder.CreateCall(printfFunction, builder.CreateGlobalStringPtr(msg))` -/
  | callPrintf (msg : String)
  /-- `builder.CreateRetVoid()` -/
  | retVoid
  deriving DecidableEq, Repr

/-- The state of a `PieIrBuilder`: the entry block built so far and the member
`finished`. -/
structure PieIrBuilder where
  entry : List Inst
  finished : Bool
  deriving DecidableEq, Repr

/-- The constructor (lines 20-37).  It does not assign `finished`: the member
starts with the value `finished0` that its declaration gives it (the
declaration, in llvm-ir.h, is not among the sources). -/
def PieIrBuilder.construct (finished0 : Bool) : PieIrBuilder :=
  { entry := [.callPrintf "Hello pie!\n"], finished := finished0 }

end pie

/-! ## Theorems -/

namespace BMV2

variable {Prog Block Main Heap : Type}

theorem PassManager.run_applied (c : Collaborators Prog Block Main Heap) (name : String)
    (ps : List Pass) (program : Prog) (w : World Heap) :
    ∃ t, (PassManager.run c name ps program w).2.applied = w.applied ++ t ∧
      ∀ e ∈ t, e.1 = name ∧ e.2 ∈ ps := by
  induction ps generalizing program w with
  | nil => exact ⟨[], by simp [PassManager.run], by simp⟩
  | cons p rest ih =>
    unfold PassManager.run
    by_cases h : c.errorCount (c.visit p program w.heap).2 > 0
    · refine ⟨[(name, p)], by simp [h], ?_⟩
      intro e he
      simp at he
      subst he
      simp
    · obtain ⟨t, ht, hall⟩ := ih (c.visit p program w.heap).1
        { heap := (c.visit p program w.heap).2, applied := w.applied ++ [(name, p)] }
      refine ⟨(name, p) :: t, by simp [h, ht], ?_⟩
      intro e he
      rcases List.mem_cons.1 he with rfl | he
      · simp
      · exact ⟨(hall e he).1, List.mem_cons_of_mem _ (hall e he).2⟩

theorem PassManager.apply_applied (c : Collaborators Prog Block Main Heap) (pm : PassManager)
    (program : Prog) (w : World Heap) :
    ∃ t, (pm.apply c program w).2.applied = w.applied ++ t ∧
      ∀ e ∈ t, e.1 = pm.name ∧ e.2 ∈ pm.passes :=
  PassManager.run_applied c pm.name pm.passes program w

theorem PassManager.run_of_staysZero (c : Collaborators Prog Block Main Heap) (name : String)
    (ps : List Pass) (program : Prog) (w : World Heap)
    (h : staysZero c ps program w.heap = true) :
    PassManager.run c name ps program w =
      (some (visitAll c ps program w.heap).1,
        { heap := (visitAll c ps program w.heap).2
          applied := w.applied ++ ps.map fun p => (name, p) }) := by
  induction ps generalizing program w with
  | nil => simp [PassManager.run, visitAll]
  | cons p rest ih =>
    simp only [staysZero, Bool.and_eq_true, beq_iff_eq] at h
    obtain ⟨h0, hrest⟩ := h
    unfold PassManager.run
    simp only [h0, gt_iff_lt, lt_self_iff_false, if_false]
    rw [ih _ _ hrest]
    simp [visitAll]

theorem PassManager.apply_of_staysZero (c : Collaborators Prog Block Main Heap)
    (pm : PassManager) (program : Prog) (w : World Heap)
    (h : staysZero c pm.passes program w.heap = true) :
    pm.apply c program w =
      (some (visitAll c pm.passes program w.heap).1,
        { heap := (visitAll c pm.passes program w.heap).2
          applied := w.applied ++ pm.entries }) :=
  PassManager.run_of_staysZero c pm.name pm.passes program w h

theorem errorCount_visitAll_of_staysZero (c : Collaborators Prog Block Main Heap)
    (ps : List Pass) (hne : ps ≠ []) (program : Prog) (h : Heap)
    (hz : staysZero c ps program h = true) :
    c.errorCount (visitAll c ps program h).2 = 0 := by
  induction ps generalizing program h with
  | nil => exact absurd rfl hne
  | cons p rest ih =>
    simp only [staysZero, Bool.and_eq_true, beq_iff_eq] at hz
    cases rest with
    | nil => simpa [visitAll] using hz.1
    | cons q rest1 => exact ih (by simp) _ _ hz.2

theorem visitAll_append (c : Collaborators Prog Block Main Heap) (ps qs : List Pass)
    (program : Prog) (h : Heap) :
    visitAll c (ps ++ qs) program h =
      visitAll c qs (visitAll c ps program h).1 (visitAll c ps program h).2 := by
  induction ps generalizing program h with
  | nil => rfl
  | cons p rest ih => simp [visitAll, ih]

theorem staysZero_append (c : Collaborators Prog Block Main Heap) (ps qs : List Pass)
    (program : Prog) (h : Heap) :
    staysZero c (ps ++ qs) program h =
      (staysZero c ps program h &&
        staysZero c qs (visitAll c ps program h).1 (visitAll c ps program h).2) := by
  induction ps generalizing program h with
  | nil => simp [staysZero, visitAll]
  | cons p rest ih => simp [staysZero, visitAll, ih, Bool.and_assoc]

theorem MidEnd.processP4_14_errors (c : Collaborators Prog Block Main Heap)
    (options : CompilerOptions) (program : Prog) (w : World Heap)
    (h : 0 < c.errorCount (MidEnd.midend.apply c program w).2.heap) :
    MidEnd.processP4_14 c options program w =
      .ret none (MidEnd.midend.apply c program w).2 := by
  simp [MidEnd.processP4_14, h]

theorem MidEnd.processP4_16_errors_simplify (c : Collaborators Prog Block Main Heap)
    (options : CompilerOptions) (program : Prog) (w : World Heap)
    (h : 0 < c.errorCount ((MidEnd.simplify options.isv1).apply c program w).2.heap) :
    MidEnd.processP4_16 c options program w =
      .ret none ((MidEnd.simplify options.isv1).apply c program w).2 := by
  simp [MidEnd.processP4_16, h]

theorem MidEnd.processP4_16_reaches_midEnd (c : Collaborators Prog Block Main Heap)
    (options : CompilerOptions) (program : Prog) (w : World Heap)
    (p : Prog) (wS : World Heap) (toplevel : Block) (main : Main)
    (hS : (MidEnd.simplify options.isv1).apply c program w = (some p, wS))
    (h0 : c.errorCount wS.heap = 0)
    (ht : c.getToplevelBlock .processP4_16 wS.heap = some toplevel)
    (hm : c.getMain toplevel = some main) :
    MidEnd.processP4_16 c options program w =
      if c.errorCount ((MidEnd.midEnd options.isv1).apply c p wS).2.heap > 0 then
        .ret none ((MidEnd.midEnd options.isv1).apply c p wS).2
      else .ret ((MidEnd.midEnd options.isv1).apply c p wS).1
        ((MidEnd.midEnd options.isv1).apply c p wS).2 := by
  simp [MidEnd.processP4_16, hS, h0, ht, hm]

theorem MidEnd.processP4_16_errors_midEnd (c : Collaborators Prog Block Main Heap)
    (options : CompilerOptions) (program : Prog) (w : World Heap)
    (p : Prog) (wS : World Heap) (toplevel : Block) (main : Main)
    (hS : (MidEnd.simplify options.isv1).apply c program w = (some p, wS))
    (h0 : c.errorCount wS.heap = 0)
    (ht : c.getToplevelBlock .processP4_16 wS.heap = some toplevel)
    (hm : c.getMain toplevel = some main)
    (hM : 0 < c.errorCount ((MidEnd.midEnd options.isv1).apply c p wS).2.heap) :
    MidEnd.processP4_16 c options program w =
      .ret none ((MidEnd.midEnd options.isv1).apply c p wS).2 := by
  rw [MidEnd.processP4_16_reaches_midEnd c options program w p wS toplevel main hS h0 ht hm]
  simp [hM]

theorem MidEnd.process_of_null (c : Collaborators Prog Block Main Heap)
    (options : CompilerOptions) (program : Prog) (w w1 : World Heap)
    (h : (if options.isv1 then MidEnd.processP4_14 c options program w
          else MidEnd.processP4_16 c options program w) = .ret none w1) :
    MidEnd.process c options program w = .ret none w1 := by
  simp only [MidEnd.process, h]

theorem MidEnd.process_of_program (c : Collaborators Prog Block Main Heap)
    (options : CompilerOptions) (program : Prog) (w : World Heap) (p : Prog) (w1 : World Heap)
    (h : (if options.isv1 then MidEnd.processP4_14 c options program w
          else MidEnd.processP4_16 c options program w) = .ret (some p) w1) :
    MidEnd.process c options program w =
      if c.errorCount ((MidEnd.backend options.isv1).apply c p w1).2.heap > 0 then
        .ret none ((MidEnd.backend options.isv1).apply c p w1).2
      else .ret (c.getToplevelBlock .process ((MidEnd.backend options.isv1).apply c p w1).2.heap)
        ((MidEnd.backend options.isv1).apply c p w1).2 := by
  simp only [MidEnd.process, h]

theorem MidEnd.process_errors_v1 (c : Collaborators Prog Block Main Heap)
    (options : CompilerOptions) (program : Prog) (w : World Heap)
    (hv : options.isv1 = true)
    (h : 0 < c.errorCount (MidEnd.midend.apply c program w).2.heap) :
    MidEnd.process c options program w = .ret none (MidEnd.midend.apply c program w).2 := by
  apply MidEnd.process_of_null
  simp [hv, MidEnd.processP4_14_errors c options program w h]

theorem MidEnd.process_errors_simplify (c : Collaborators Prog Block Main Heap)
    (options : CompilerOptions) (program : Prog) (w : World Heap)
    (hv : options.isv1 = false)
    (h : 0 < c.errorCount ((MidEnd.simplify options.isv1).apply c program w).2.heap) :
    MidEnd.process c options program w =
      .ret none ((MidEnd.simplify options.isv1).apply c program w).2 := by
  apply MidEnd.process_of_null
  simp only [hv, Bool.false_eq_true, if_false]
  rw [← hv]
  exact MidEnd.processP4_16_errors_simplify c options program w h

theorem MidEnd.process_errors_midEnd (c : Collaborators Prog Block Main Heap)
    (options : CompilerOptions) (program : Prog) (w : World Heap)
    (hv : options.isv1 = false)
    (p : Prog) (wS : World Heap) (toplevel : Block) (main : Main)
    (hS : (MidEnd.simplify options.isv1).apply c program w = (some p, wS))
    (h0 : c.errorCount wS.heap = 0)
    (ht : c.getToplevelBlock .processP4_16 wS.heap = some toplevel)
    (hm : c.getMain toplevel = some main)
    (hM : 0 < c.errorCount ((MidEnd.midEnd options.isv1).apply c p wS).2.heap) :
    MidEnd.process c options program w =
      .ret none ((MidEnd.midEnd options.isv1).apply c p wS).2 := by
  apply MidEnd.process_of_null
  simp only [hv, Bool.false_eq_true, if_false]
  rw [← hv]
  exact MidEnd.processP4_16_errors_midEnd c options program w p wS toplevel main hS h0 ht hm hM

/-- C1. Each of `processP4_14`, `processP4_16` and `process` returns null as soon
as the error count is greater than zero after a pipeline it applied: `V1MidEnd`
for `processP4_14`; `Simplify`, and `MidEnd` when it is reached, for
`processP4_16`; those and `Backend` for `process`.  Conversely a non-null result
of `process` means that the count was zero after every pipeline it ran. -/
theorem MidEnd.null_result_when_errors_after_pipeline
    (c : Collaborators Prog Block Main Heap) (options : CompilerOptions)
    (program : Prog) (w : World Heap) :
    -- processP4_14, after V1MidEnd
    (0 < c.errorCount (MidEnd.midend.apply c program w).2.heap →
      MidEnd.processP4_14 c options program w =
        .ret none (MidEnd.midend.apply c program w).2) ∧
    -- processP4_16, after Simplify
    (0 < c.errorCount ((MidEnd.simplify options.isv1).apply c program w).2.heap →
      MidEnd.processP4_16 c options program w =
        .ret none ((MidEnd.simplify options.isv1).apply c program w).2) ∧
    -- processP4_16, after MidEnd, which runs on the program `p` that Simplify returned
    (∀ p wS toplevel main, (MidEnd.simplify options.isv1).apply c program w = (some p, wS) →
      c.errorCount wS.heap = 0 →
      c.getToplevelBlock .processP4_16 wS.heap = some toplevel →
      c.getMain toplevel = some main →
      0 < c.errorCount ((MidEnd.midEnd options.isv1).apply c p wS).2.heap →
      MidEnd.processP4_16 c options program w =
        .ret none ((MidEnd.midEnd options.isv1).apply c p wS).2) ∧
    -- process, after V1MidEnd
    (options.isv1 = true →
      0 < c.errorCount (MidEnd.midend.apply c program w).2.heap →
      MidEnd.process c options program w = .ret none (MidEnd.midend.apply c program w).2) ∧
    -- process, after Simplify
    (options.isv1 = false →
      0 < c.errorCount ((MidEnd.simplify options.isv1).apply c program w).2.heap →
      MidEnd.process c options program w =
        .ret none ((MidEnd.simplify options.isv1).apply c program w).2) ∧
    -- process, after MidEnd
    (options.isv1 = false →
      ∀ p wS toplevel main, (MidEnd.simplify options.isv1).apply c program w = (some p, wS) →
      c.errorCount wS.heap = 0 →
      c.getToplevelBlock .processP4_16 wS.heap = some toplevel →
      c.getMain toplevel = some main →
      0 < c.errorCount ((MidEnd.midEnd options.isv1).apply c p wS).2.heap →
      MidEnd.process c options program w =
        .ret none ((MidEnd.midEnd options.isv1).apply c p wS).2) ∧
    -- process, after Backend, which runs on the program `p` that the dialect pipeline returned
    (∀ p w1, (if options.isv1 then MidEnd.processP4_14 c options program w
              else MidEnd.processP4_16 c options program w) = .ret (some p) w1 →
      0 < c.errorCount ((MidEnd.backend options.isv1).apply c p w1).2.heap →
      MidEnd.process c options program w =
        .ret none ((MidEnd.backend options.isv1).apply c p w1).2) ∧
    -- a non-null result of the dialect pipelines: the count was zero after each pipeline
    (∀ p w1, MidEnd.processP4_14 c options program w = .ret (some p) w1 →
      MidEnd.midend.apply c program w = (some p, w1) ∧ c.errorCount w1.heap = 0) ∧
    (∀ p w1, MidEnd.processP4_16 c options program w = .ret (some p) w1 →
      ∃ q wS, (MidEnd.simplify options.isv1).apply c program w = (some q, wS) ∧
        c.errorCount wS.heap = 0 ∧
        (MidEnd.midEnd options.isv1).apply c q wS = (some p, w1) ∧
        c.errorCount w1.heap = 0) ∧
    -- a non-null result of process: the dialect pipeline returned a program and
    -- the count was zero after Backend
    (∀ b w2, MidEnd.process c options program w = .ret (some b) w2 →
      ∃ p w1, (if options.isv1 then MidEnd.processP4_14 c options program w
                else MidEnd.processP4_16 c options program w) = .ret (some p) w1 ∧
        w2 = ((MidEnd.backend options.isv1).apply c p w1).2 ∧
        c.errorCount w2.heap = 0) := by
  refine ⟨MidEnd.processP4_14_errors c options program w,
    MidEnd.processP4_16_errors_simplify c options program w,
    MidEnd.processP4_16_errors_midEnd c options program w,
    MidEnd.process_errors_v1 c options program w,
    MidEnd.process_errors_simplify c options program w,
    MidEnd.process_errors_midEnd c options program w, ?_, ?_, ?_, ?_⟩
  · intro p w1 hsub hB
    rw [MidEnd.process_of_program c options program w p w1 hsub]
    simp [hB]
  · intro p w1 h
    unfold MidEnd.processP4_14 at h
    by_cases he : 0 < c.errorCount (MidEnd.midend.apply c program w).2.heap
    · simp [he] at h
    · simp only [gt_iff_lt, he, if_false, Outcome.ret.injEq] at h
      obtain ⟨h1, h2⟩ := h
      subst h2
      exact ⟨Prod.ext h1 rfl, Nat.eq_zero_of_not_pos he⟩
  · intro p w1 h
    unfold MidEnd.processP4_16 at h
    by_cases he : 0 < c.errorCount ((MidEnd.simplify options.isv1).apply c program w).2.heap
    · simp [he] at h
    · simp only [gt_iff_lt, he, if_false] at h
      cases ht : c.getToplevelBlock Fn.processP4_16
          ((MidEnd.simplify options.isv1).apply c program w).2.heap with
      | none => simp [ht] at h
      | some toplevel =>
        simp only [ht] at h
        cases hm : c.getMain toplevel with
        | none => simp [hm] at h
        | some main =>
          simp only [hm] at h
          cases hq : ((MidEnd.simplify options.isv1).apply c program w).1 with
          | none => simp [hq] at h
          | some q =>
            simp only [hq] at h
            by_cases hM : 0 < c.errorCount ((MidEnd.midEnd options.isv1).apply c q
                ((MidEnd.simplify options.isv1).apply c program w).2).2.heap
            · simp [hM] at h
            · simp only [hM, if_false, Outcome.ret.injEq] at h
              obtain ⟨h1, h2⟩ := h
              subst h2
              exact ⟨q, _, Prod.ext hq rfl, Nat.eq_zero_of_not_pos he, Prod.ext h1 rfl,
                Nat.eq_zero_of_not_pos hM⟩
  · intro b w2 h
    unfold MidEnd.process at h
    cases hsub : (if options.isv1 then MidEnd.processP4_14 c options program w
        else MidEnd.processP4_16 c options program w) with
    | nullDeref w1 => simp [hsub] at h
    | ret v w1 =>
      simp only [hsub] at h
      cases v with
      | none => simp at h
      | some p =>
        simp only at h
        by_cases hB : 0 < c.errorCount ((MidEnd.backend options.isv1).apply c p w1).2.heap
        · simp [hB] at h
        · simp only [gt_iff_lt, hB, if_false, Outcome.ret.injEq] at h
          obtain ⟨_, h2⟩ := h
          subst h2
          exact ⟨p, w1, rfl, rfl, Nat.eq_zero_of_not_pos hB⟩

/-- C1, at the toy instance with `isv1` false: program 1 makes `ConvertEnums`
report an error, so the count is nonzero after Simplify and `process` returns
null; program 3 makes `RemoveLeftSlices` report one, so the dialect pipeline
returns a program, the count is nonzero after Backend and `process` returns
null. -/
theorem MidEnd.null_result_when_errors_after_pipeline_witness :
    (0 < Toy.collaborators.errorCount
        ((MidEnd.simplify false).apply Toy.collaborators 1 Toy.start).2.heap ∧
      MidEnd.process Toy.collaborators ⟨false⟩ 1 Toy.start =
        .ret none ((MidEnd.simplify false).apply Toy.collaborators 1 Toy.start).2) ∧
    (0 < Toy.collaborators.errorCount
        ((MidEnd.backend false).apply Toy.collaborators 3
          ((MidEnd.midEnd false).apply Toy.collaborators 3
            ((MidEnd.simplify false).apply Toy.collaborators 3 Toy.start).2).2).2.heap ∧
      MidEnd.process Toy.collaborators ⟨false⟩ 3 Toy.start =
        .ret none ((MidEnd.backend false).apply Toy.collaborators 3
          ((MidEnd.midEnd false).apply Toy.collaborators 3
            ((MidEnd.simplify false).apply Toy.collaborators 3 Toy.start).2).2).2) :=
  ⟨⟨by decide,
      (MidEnd.null_result_when_errors_after_pipeline Toy.collaborators ⟨false⟩ 1
        Toy.start).2.2.2.2.1 rfl (by decide)⟩,
    ⟨by decide,
      (MidEnd.null_result_when_errors_after_pipeline Toy.collaborators ⟨false⟩ 3
        Toy.start).2.2.2.2.2.2.1 3 _ rfl (by decide)⟩⟩

theorem PassManager.apply_ranOnly (c : Collaborators Prog Block Main Heap) (pm : PassManager)
    (program : Prog) (w : World Heap) :
    World.ranOnly [pm.name] w (pm.apply c program w).2 := by
  obtain ⟨t, ht, hall⟩ := PassManager.apply_applied c pm program w
  exact ⟨t, ht, fun e he => by simp [(hall e he).1]⟩

theorem World.ranOnly_trans {names : List String} {w w1 w2 : World Heap}
    (h1 : World.ranOnly names w w1) (h2 : World.ranOnly names w1 w2) :
    World.ranOnly names w w2 := by
  obtain ⟨t1, e1, a1⟩ := h1
  obtain ⟨t2, e2, a2⟩ := h2
  refine ⟨t1 ++ t2, by rw [e2, e1, List.append_assoc], ?_⟩
  intro e he
  rcases List.mem_append.1 he with h | h
  · exact a1 e h
  · exact a2 e h

theorem World.ranOnly_mono {names names1 : List String} {w w1 : World Heap}
    (hsub : ∀ n ∈ names, n ∈ names1) (h : World.ranOnly names w w1) :
    World.ranOnly names1 w w1 := by
  obtain ⟨t, e, a⟩ := h
  exact ⟨t, e, fun x hx => hsub _ (a x hx)⟩

/-- C2. In a run of `process`, once the error count is nonzero after a pipeline,
no pass of a later pipeline is applied.  Nonzero after Simplify: `process`
returns null in the world Simplify left, and only Simplify passes were applied
(none of MidEnd, none of Backend).  Nonzero after MidEnd: it returns null in the
world MidEnd left, and only Simplify and MidEnd passes were applied (none of
Backend).  Nonzero after V1MidEnd: it returns null in the world V1MidEnd left,
and only V1MidEnd passes were applied (none of Backend). -/
theorem MidEnd.no_later_pipeline_after_errors
    (c : Collaborators Prog Block Main Heap) (options : CompilerOptions)
    (program : Prog) (w : World Heap) :
    (options.isv1 = false →
      0 < c.errorCount ((MidEnd.simplify options.isv1).apply c program w).2.heap →
      MidEnd.process c options program w =
          .ret none ((MidEnd.simplify options.isv1).apply c program w).2 ∧
        World.ranOnly ["Simplify"] w ((MidEnd.simplify options.isv1).apply c program w).2) ∧
    (options.isv1 = false →
      ∀ p wS toplevel main, (MidEnd.simplify options.isv1).apply c program w = (some p, wS) →
      c.errorCount wS.heap = 0 →
      c.getToplevelBlock .processP4_16 wS.heap = some toplevel →
      c.getMain toplevel = some main →
      0 < c.errorCount ((MidEnd.midEnd options.isv1).apply c p wS).2.heap →
      MidEnd.process c options program w =
          .ret none ((MidEnd.midEnd options.isv1).apply c p wS).2 ∧
        World.ranOnly ["Simplify", "MidEnd"] w ((MidEnd.midEnd options.isv1).apply c p wS).2) ∧
    (options.isv1 = true →
      0 < c.errorCount (MidEnd.midend.apply c program w).2.heap →
      MidEnd.process c options program w =
          .ret none (MidEnd.midend.apply c program w).2 ∧
        World.ranOnly ["V1MidEnd"] w (MidEnd.midend.apply c program w).2) := by
  refine ⟨?_, ?_, ?_⟩
  · intro hv h
    exact ⟨MidEnd.process_errors_simplify c options program w hv h,
      PassManager.apply_ranOnly c (MidEnd.simplify options.isv1) program w⟩
  · intro hv p wS toplevel main hS h0 ht hm hM
    refine ⟨MidEnd.process_errors_midEnd c options program w hv p wS toplevel main hS h0 ht hm hM,
      ?_⟩
    have h1 := PassManager.apply_ranOnly c (MidEnd.simplify options.isv1) program w
    rw [hS] at h1
    have h2 := PassManager.apply_ranOnly c (MidEnd.midEnd options.isv1) p wS
    exact World.ranOnly_trans (World.ranOnly_mono (by simp [MidEnd.simplify]) h1)
      (World.ranOnly_mono (by simp [MidEnd.midEnd]) h2)
  · intro hv h
    exact ⟨MidEnd.process_errors_v1 c options program w hv h,
      PassManager.apply_ranOnly c MidEnd.midend program w⟩

/-- C2, at the toy instance: program 2 passes Simplify without error and makes
`SimplifyKey`, a pass of MidEnd, report one; `process` returns null in the world
MidEnd left, where only Simplify and MidEnd passes were applied.  Program 4 with
`isv1` true makes `InlineDriver` of V1MidEnd report an error. -/
theorem MidEnd.no_later_pipeline_after_errors_witness :
    (MidEnd.process Toy.collaborators ⟨false⟩ 2 Toy.start =
        .ret none ((MidEnd.midEnd false).apply Toy.collaborators 2
          ((MidEnd.simplify false).apply Toy.collaborators 2 Toy.start).2).2 ∧
      World.ranOnly ["Simplify", "MidEnd"] Toy.start
        ((MidEnd.midEnd false).apply Toy.collaborators 2
          ((MidEnd.simplify false).apply Toy.collaborators 2 Toy.start).2).2) ∧
    (MidEnd.process Toy.collaborators ⟨true⟩ 4 Toy.start =
        .ret none (MidEnd.midend.apply Toy.collaborators 4 Toy.start).2 ∧
      World.ranOnly ["V1MidEnd"] Toy.start
        (MidEnd.midend.apply Toy.collaborators 4 Toy.start).2) :=
  ⟨(MidEnd.no_later_pipeline_after_errors Toy.collaborators ⟨false⟩ 2 Toy.start).2.1 rfl
      2 _ 2 () rfl (by decide) rfl rfl (by decide),
    (MidEnd.no_later_pipeline_after_errors Toy.collaborators ⟨true⟩ 4 Toy.start).2.2 rfl
      (by decide)⟩

theorem kindAt_lt {l : List Pass} {i : Nat} {k : PassKind} (h : kindAt l i = some k) :
    i < l.length := by
  unfold kindAt at h
  by_contra hn
  rw [List.getElem?_eq_none (Nat.le_of_not_lt hn)] at h
  simp at h

theorem typeCheckedAtOnce_midEnd (isv1 : Bool) : TypeCheckedAtOnce (MidEnd.midEnd isv1).passes := by
  intro i k hk hs
  have hlt : i < 27 := kindAt_lt hk
  interval_cases i <;> simp [kindAt, MidEnd.midEnd, Pass.kind] at hk <;> subst hk <;>
    first | rfl | exact absurd hs (by decide)

theorem typeCheckedAtOnce_midend : TypeCheckedAtOnce MidEnd.midend.passes := by
  intro i k hk hs
  have hlt : i < 9 := kindAt_lt hk
  interval_cases i <;> simp [kindAt, MidEnd.midend, Pass.kind] at hk <;> subst hk <;>
    first | rfl | exact absurd hs (by decide)

theorem typeCheckedAtOnce_backend (isv1 : Bool) :
    TypeCheckedAtOnce (MidEnd.backend isv1).passes := by
  intro i k hk hs
  have hlt : i < 10 := kindAt_lt hk
  interval_cases i <;> simp [kindAt, MidEnd.backend, Pass.kind] at hk <;> subst hk <;>
    first | rfl | exact absurd hs (by decide)

theorem typeCheckedLater_simplify (isv1 : Bool) :
    TypeCheckedLater (MidEnd.simplify isv1).passes := by
  intro i k hk hs
  have hlt : i < 12 := kindAt_lt hk
  interval_cases i <;> simp [kindAt, MidEnd.simplify, Pass.kind] at hk <;> subst hk <;>
    first | exact ⟨10, by decide, rfl⟩ | exact absurd hs (by decide)

/-- C3 as stated fails on the Simplify list: its pass 4 is `UniqueNames`, which
changes type-relevant structure, and its pass 5 is `MoveDeclarations`, not
`TypeChecking`. -/
theorem typeCheckedAtOnce_simplify_fails :
    kindAt (MidEnd.simplify false).passes 4 = some .UniqueNames ∧
    kindAt (MidEnd.simplify false).passes 5 = some .MoveDeclarations ∧
    ¬ TypeCheckedAtOnce (MidEnd.simplify false).passes := by
  refine ⟨rfl, rfl, fun h => ?_⟩
  have := h 4 .UniqueNames rfl rfl
  simp [kindAt, MidEnd.simplify, Pass.kind] at this

/-- C3, amended. In the V1MidEnd, MidEnd and Backend lists every pass that changes
type-relevant structure has `TypeChecking` as its immediate successor.  In the
Simplify list each such pass has a `TypeChecking` pass later in the list, not
next to it: the list runs `UniqueNames`, `MoveDeclarations`,
`ResolveReferences`, `RemoveReturns`, `MoveConstructors`,
`RemoveAllUnusedDeclarations` and only then `TypeChecking`. -/
theorem structural_passes_type_checked (isv1 : Bool) :
    TypeCheckedAtOnce MidEnd.midend.passes ∧
    TypeCheckedAtOnce (MidEnd.midEnd isv1).passes ∧
    TypeCheckedAtOnce (MidEnd.backend isv1).passes ∧
    TypeCheckedLater (MidEnd.simplify isv1).passes ∧
    (MidEnd.simplify isv1).passes.map Pass.kind =
      [.TypeChecking, .ConvertEnums, .TypeChecking, .ResetHeaders, .UniqueNames,
        .MoveDeclarations, .ResolveReferences, .RemoveReturns, .MoveConstructors,
        .RemoveAllUnusedDeclarations, .TypeChecking, .Evaluator] :=
  ⟨typeCheckedAtOnce_midend, typeCheckedAtOnce_midEnd isv1, typeCheckedAtOnce_backend isv1,
    typeCheckedLater_simplify isv1, rfl⟩

/-- C4 as stated fails in both pipelines.  In V1MidEnd pass 7 is
`InlineActionsDriver` and the list ends after the cleanup at 8.  In MidEnd pass
5 is `InlineActionsDriver` and pass 7, after the cleanup, is
`LocalizeAllActions`, not `TypeChecking`. -/
theorem cleanedThenTypeChecked_fails :
    (kindAt MidEnd.midend.passes 7 = some .InlineActionsDriver ∧
      kindAt MidEnd.midend.passes 9 = none ∧
      ¬ CleanedThenTypeChecked MidEnd.midend.passes) ∧
    (kindAt (MidEnd.midEnd false).passes 5 = some .InlineActionsDriver ∧
      kindAt (MidEnd.midEnd false).passes 7 = some .LocalizeAllActions ∧
      ¬ CleanedThenTypeChecked (MidEnd.midEnd false).passes) := by
  refine ⟨⟨rfl, rfl, fun h => ?_⟩, ⟨rfl, rfl, fun h => ?_⟩⟩
  · have := (h 7 .InlineActionsDriver rfl rfl).2
    simp [kindAt, MidEnd.midend] at this
  · have := (h 5 .InlineActionsDriver rfl rfl).2
    simp [kindAt, MidEnd.midEnd, Pass.kind] at this

/-- C4, amended. In V1MidEnd and in MidEnd the pass after each inline driver is
`RemoveAllUnusedDeclarations`.  After `InlineDriver` that cleanup is followed
at once by `TypeChecking`.  After `InlineActionsDriver` it is not: in V1MidEnd
the cleanup is the last pass of the list (the Backend list, which `process`
applies next, starts with `TypeChecking`); in MidEnd the cleanup is followed by
`LocalizeAllActions`, `RemoveAllUnusedDeclarations`, `UniqueParameters` and only
then `TypeChecking`. -/
theorem inline_drivers_cleaned (isv1 : Bool) :
    CleanedAfterDriver MidEnd.midend.passes ∧
    CleanedAfterDriver (MidEnd.midEnd isv1).passes ∧
    (∀ i, kindAt MidEnd.midend.passes i = some .InlineDriver →
      kindAt MidEnd.midend.passes (i + 2) = some .TypeChecking) ∧
    (∀ i, kindAt (MidEnd.midEnd isv1).passes i = some .InlineDriver →
      kindAt (MidEnd.midEnd isv1).passes (i + 2) = some .TypeChecking) ∧
    (∀ i, kindAt MidEnd.midend.passes i = some .InlineActionsDriver →
      kindAt MidEnd.midend.passes (i + 2) = none ∧
        kindAt (MidEnd.backend isv1).passes 0 = some .TypeChecking) ∧
    (∀ i, kindAt (MidEnd.midEnd isv1).passes i = some .InlineActionsDriver →
      kindAt (MidEnd.midEnd isv1).passes (i + 2) = some .LocalizeAllActions ∧
        kindAt (MidEnd.midEnd isv1).passes (i + 3) = some .RemoveAllUnusedDeclarations ∧
        kindAt (MidEnd.midEnd isv1).passes (i + 4) = some .UniqueParameters ∧
        kindAt (MidEnd.midEnd isv1).passes (i + 5) = some .TypeChecking) := by
  refine ⟨?_, ?_, ?_, ?_, ?_, ?_⟩
  · intro i k hk hs
    have hlt : i < 9 := kindAt_lt hk
    interval_cases i <;> simp [kindAt, MidEnd.midend, Pass.kind] at hk <;> subst hk <;>
      first | rfl | exact absurd hs (by decide)
  · intro i k hk hs
    have hlt : i < 27 := kindAt_lt hk
    interval_cases i <;> simp [kindAt, MidEnd.midEnd, Pass.kind] at hk <;> subst hk <;>
      first | rfl | exact absurd hs (by decide)
  · intro i hk
    have hlt : i < 9 := kindAt_lt hk
    interval_cases i <;> first | rfl | simp [kindAt, MidEnd.midend, Pass.kind] at hk
  · intro i hk
    have hlt : i < 27 := kindAt_lt hk
    interval_cases i <;> first | rfl | simp [kindAt, MidEnd.midEnd, Pass.kind] at hk
  · intro i hk
    have hlt : i < 9 := kindAt_lt hk
    interval_cases i <;>
      first | exact ⟨rfl, rfl⟩ | simp [kindAt, MidEnd.midend, Pass.kind] at hk
  · intro i hk
    have hlt : i < 27 := kindAt_lt hk
    interval_cases i <;>
      first | exact ⟨rfl, rfl, rfl, rfl⟩ | simp [kindAt, MidEnd.midEnd, Pass.kind] at hk

/-- C5. In the V1MidEnd list and in the MidEnd list the inline passes are two
adjacent pairs: `DiscoverInlining` right before `InlineDriver`, both constructed
over the same `InlineWorkList`, and later `DiscoverActionsInlining` right before
`InlineActionsDriver`, both constructed over the same `ActionsInlineList`; there
is no other inline driver in the list and no other pass receives either
work-list. -/
theorem inline_pairs_in_order (isv1 : Bool) :
    InlinePairsInOrder MidEnd.midend.passes ∧ InlinePairsInOrder (MidEnd.midEnd isv1).passes := by
  constructor
  · refine ⟨(MidEnd.midend.passes).take 2, ((MidEnd.midend.passes).drop 4).take 2,
      (MidEnd.midend.passes).drop 8, .processP4_14, .processP4_14,
      [.refMap, .typeMap, .evaluator .processP4_14],
      [.inliner .SimpleControlsInliner, .flag true], [.refMap, .typeMap],
      [.inliner .SimpleActionsInliner, .flag true], rfl, ?_, ?_, ?_⟩ <;> decide
  · refine ⟨[], (((MidEnd.midEnd isv1).passes).drop 2).take 2,
      ((MidEnd.midEnd isv1).passes).drop 6, .processP4_16, .processP4_16,
      [.refMap, .typeMap, .evaluator .processP4_16],
      [.inliner .GeneralInliner, .flag isv1], [.refMap, .typeMap],
      [.inliner .ActionsInliner, .flag isv1], rfl, ?_, ?_, ?_⟩ <;>
    cases isv1 <;> decide

/-- C6. With `options.isv1()` false, when the error count is zero after every
pass of Simplify, MidEnd and Backend run in sequence and the toplevel block that
the evaluator of `processP4_16` holds at the end of Simplify has a main:
`process` applies Simplify to the input, MidEnd to the program Simplify
returned and Backend to the program MidEnd returned, every pass of the three
lists in order and nothing else, and returns the toplevel block held by the
evaluator of `process`, which is the last pass of Backend, in the heap that this
evaluator left when it visited the program produced by the other Backend
passes. -/
theorem MidEnd.process_runs_three_pipelines
    (c : Collaborators Prog Block Main Heap) (options : CompilerOptions)
    (program : Prog) (w : World Heap) (toplevel : Block) (main : Main)
    (hv : options.isv1 = false)
    (hzero : staysZero c ((MidEnd.simplify false).passes ++ (MidEnd.midEnd false).passes ++
      (MidEnd.backend false).passes) program w.heap = true)
    (ht : c.getToplevelBlock .processP4_16 (MidEnd.afterSimplify c false program w.heap).2 =
      some toplevel)
    (hm : c.getMain toplevel = some main) :
    (MidEnd.simplify false).apply c program w =
      (some (MidEnd.afterSimplify c false program w.heap).1,
        { heap := (MidEnd.afterSimplify c false program w.heap).2
          applied := w.applied ++ (MidEnd.simplify false).entries }) ∧
    (MidEnd.midEnd false).apply c (MidEnd.afterSimplify c false program w.heap).1
        { heap := (MidEnd.afterSimplify c false program w.heap).2
          applied := w.applied ++ (MidEnd.simplify false).entries } =
      (some (MidEnd.afterMidEnd c false program w.heap).1,
        { heap := (MidEnd.afterMidEnd c false program w.heap).2
          applied := w.applied ++ (MidEnd.simplify false).entries ++
            (MidEnd.midEnd false).entries }) ∧
    (MidEnd.backend false).apply c (MidEnd.afterMidEnd c false program w.heap).1
        { heap := (MidEnd.afterMidEnd c false program w.heap).2
          applied := w.applied ++ (MidEnd.simplify false).entries ++
            (MidEnd.midEnd false).entries } =
      (some (MidEnd.afterBackend c false program w.heap).1,
        { heap := (MidEnd.afterBackend c false program w.heap).2
          applied := w.applied ++ (MidEnd.simplify false).entries ++
            (MidEnd.midEnd false).entries ++ (MidEnd.backend false).entries }) ∧
    MidEnd.process c options program w =
      .ret (c.getToplevelBlock .process (MidEnd.afterBackend c false program w.heap).2)
        { heap := (MidEnd.afterBackend c false program w.heap).2
          applied := w.applied ++ (MidEnd.simplify false).entries ++
            (MidEnd.midEnd false).entries ++ (MidEnd.backend false).entries } ∧
    (MidEnd.backend false).passes.getLast? = some (.evaluator .process) ∧
    MidEnd.afterBackend c false program w.heap =
      c.visit (.evaluator .process) (MidEnd.beforeEvaluator c false program w.heap).1
        (MidEnd.beforeEvaluator c false program w.heap).2 := by
  obtain ⟨v⟩ := options
  simp only at hv
  subst hv
  rw [staysZero_append, staysZero_append, Bool.and_eq_true, Bool.and_eq_true] at hzero
  obtain ⟨⟨hS, hM⟩, hB⟩ := hzero
  rw [visitAll_append] at hB
  have eS : (MidEnd.simplify false).apply c program w =
      (some (MidEnd.afterSimplify c false program w.heap).1,
        { heap := (MidEnd.afterSimplify c false program w.heap).2
          applied := w.applied ++ (MidEnd.simplify false).entries }) :=
    PassManager.apply_of_staysZero c (MidEnd.simplify false) program w hS
  have zS : c.errorCount (MidEnd.afterSimplify c false program w.heap).2 = 0 :=
    errorCount_visitAll_of_staysZero c _ (by simp [MidEnd.simplify]) _ _ hS
  have eM : (MidEnd.midEnd false).apply c (MidEnd.afterSimplify c false program w.heap).1
        { heap := (MidEnd.afterSimplify c false program w.heap).2
          applied := w.applied ++ (MidEnd.simplify false).entries } =
      (some (MidEnd.afterMidEnd c false program w.heap).1,
        { heap := (MidEnd.afterMidEnd c false program w.heap).2
          applied := w.applied ++ (MidEnd.simplify false).entries ++
            (MidEnd.midEnd false).entries }) :=
    PassManager.apply_of_staysZero c (MidEnd.midEnd false)
      (MidEnd.afterSimplify c false program w.heap).1
      { heap := (MidEnd.afterSimplify c false program w.heap).2
        applied := w.applied ++ (MidEnd.simplify false).entries } hM
  have zM : c.errorCount (MidEnd.afterMidEnd c false program w.heap).2 = 0 :=
    errorCount_visitAll_of_staysZero c _ (by simp [MidEnd.midEnd]) _ _ hM
  have eB : (MidEnd.backend false).apply c (MidEnd.afterMidEnd c false program w.heap).1
        { heap := (MidEnd.afterMidEnd c false program w.heap).2
          applied := w.applied ++ (MidEnd.simplify false).entries ++
            (MidEnd.midEnd false).entries } =
      (some (MidEnd.afterBackend c false program w.heap).1,
        { heap := (MidEnd.afterBackend c false program w.heap).2
          applied := w.applied ++ (MidEnd.simplify false).entries ++
            (MidEnd.midEnd false).entries ++ (MidEnd.backend false).entries }) :=
    PassManager.apply_of_staysZero c (MidEnd.backend false)
      (MidEnd.afterMidEnd c false program w.heap).1
      { heap := (MidEnd.afterMidEnd c false program w.heap).2
        applied := w.applied ++ (MidEnd.simplify false).entries ++
          (MidEnd.midEnd false).entries } hB
  have zB : c.errorCount (MidEnd.afterBackend c false program w.heap).2 = 0 :=
    errorCount_visitAll_of_staysZero c _ (by simp [MidEnd.backend]) _ _ hB
  refine ⟨eS, eM, eB, ?_, rfl, ?_⟩
  · simp only [MidEnd.process, MidEnd.processP4_16, eS, zS, ht, hm, eM, zM, eB, zB,
      Bool.false_eq_true, if_false, gt_iff_lt, lt_self_iff_false]
  · simp [MidEnd.afterBackend, MidEnd.beforeEvaluator, MidEnd.backend, visitAll]

/-- C6, at the toy instance and program 0: no pass reports an error, the block
computed at the end of Simplify is 0 and has a main, `LowerExpressions` of
Backend turns the program into 100; `process` returns block 100, the one the
evaluator of Backend computed from the final program. -/
theorem MidEnd.process_runs_three_pipelines_witness :
    MidEnd.process Toy.collaborators ⟨false⟩ 0 Toy.start =
        .ret (Toy.collaborators.getToplevelBlock .process
            (MidEnd.afterBackend Toy.collaborators false 0 Toy.start.heap).2)
          { heap := (MidEnd.afterBackend Toy.collaborators false 0 Toy.start.heap).2
            applied := Toy.start.applied ++ (MidEnd.simplify false).entries ++
              (MidEnd.midEnd false).entries ++ (MidEnd.backend false).entries } ∧
      Toy.collaborators.getToplevelBlock .process
        (MidEnd.afterBackend Toy.collaborators false 0 Toy.start.heap).2 = some 100 ∧
      Toy.collaborators.getToplevelBlock .processP4_16
        (MidEnd.afterBackend Toy.collaborators false 0 Toy.start.heap).2 = some 0 :=
  ⟨(MidEnd.process_runs_three_pipelines Toy.collaborators ⟨false⟩ 0 Toy.start 0 () rfl
      (by decide) rfl rfl).2.2.2.1, rfl, rfl⟩

theorem PassManager.apply_ranFrom (c : Collaborators Prog Block Main Heap) (pm : PassManager)
    (p : Pass) (rest : List Pass) (hp : pm.passes = p :: rest) (program : Prog) (w : World Heap) :
    World.ranFrom (pm.name, p) [pm.name] w (pm.apply c program w).2 := by
  unfold PassManager.apply
  rw [hp]
  unfold PassManager.run
  by_cases h : c.errorCount (c.visit p program w.heap).2 > 0
  · exact ⟨[], by simp [h], by simp⟩
  · obtain ⟨t, ht, hall⟩ := PassManager.run_applied c pm.name rest (c.visit p program w.heap).1
      { heap := (c.visit p program w.heap).2, applied := w.applied ++ [(pm.name, p)] }
    exact ⟨t, by simp [h, ht], fun e he => by simp [(hall e he).1]⟩

theorem World.ranFrom_mono {first : String × Pass} {names names1 : List String}
    {w w1 : World Heap} (hsub : ∀ n ∈ names, n ∈ names1)
    (h : World.ranFrom first names w w1) :
    World.ranFrom first names1 w w1 := by
  obtain ⟨t, e, a⟩ := h
  exact ⟨t, e, fun x hx => hsub _ (a x hx)⟩

theorem World.ranFrom_trans {first : String × Pass} {names : List String}
    {w w1 w2 : World Heap} (h1 : World.ranFrom first names w w1)
    (h2 : World.ranOnly names w1 w2) : World.ranFrom first names w w2 := by
  obtain ⟨t1, e1, a1⟩ := h1
  obtain ⟨t2, e2, a2⟩ := h2
  refine ⟨t1 ++ t2, by rw [e2, e1]; simp, ?_⟩
  intro e he
  rcases List.mem_append.1 he with h | h
  · exact a1 e h
  · exact a2 e h

theorem MidEnd.processP4_14_world (c : Collaborators Prog Block Main Heap)
    (options : CompilerOptions) (program : Prog) (w : World Heap) :
    ∃ v, MidEnd.processP4_14 c options program w =
      .ret v (MidEnd.midend.apply c program w).2 := by
  unfold MidEnd.processP4_14
  by_cases h : c.errorCount (MidEnd.midend.apply c program w).2.heap > 0
  · exact ⟨none, by simp [h]⟩
  · exact ⟨(MidEnd.midend.apply c program w).1, by simp [h]⟩

theorem MidEnd.processP4_16_world (c : Collaborators Prog Block Main Heap)
    (options : CompilerOptions) (program : Prog) (w : World Heap) :
    (MidEnd.processP4_16 c options program w).world =
        ((MidEnd.simplify options.isv1).apply c program w).2 ∨
      ∃ p, (MidEnd.processP4_16 c options program w).world =
        ((MidEnd.midEnd options.isv1).apply c p
          ((MidEnd.simplify options.isv1).apply c program w).2).2 := by
  unfold MidEnd.processP4_16
  by_cases he : 0 < c.errorCount ((MidEnd.simplify options.isv1).apply c program w).2.heap
  · left
    simp [he, Outcome.world]
  · simp only [gt_iff_lt, he, if_false]
    cases ht : c.getToplevelBlock Fn.processP4_16
        ((MidEnd.simplify options.isv1).apply c program w).2.heap with
    | none => exact Or.inl rfl
    | some toplevel =>
      simp only []
      cases hm : c.getMain toplevel with
      | none => exact Or.inl rfl
      | some main =>
        simp only []
        cases hq : ((MidEnd.simplify options.isv1).apply c program w).1 with
        | none => exact Or.inl rfl
        | some q =>
          simp only []
          right
          refine ⟨q, ?_⟩
          by_cases hM : 0 < c.errorCount ((MidEnd.midEnd options.isv1).apply c q
              ((MidEnd.simplify options.isv1).apply c program w).2).2.heap
          · simp [hM, Outcome.world]
          · simp [hM, Outcome.world]

theorem MidEnd.process_world (c : Collaborators Prog Block Main Heap)
    (options : CompilerOptions) (program : Prog) (w : World Heap) :
    (MidEnd.process c options program w).world =
        (if options.isv1 then MidEnd.processP4_14 c options program w
          else MidEnd.processP4_16 c options program w).world ∨
      ∃ p, (MidEnd.process c options program w).world =
        ((MidEnd.backend options.isv1).apply c p
          (if options.isv1 then MidEnd.processP4_14 c options program w
            else MidEnd.processP4_16 c options program w).world).2 := by
  cases hsub : (if options.isv1 then MidEnd.processP4_14 c options program w
      else MidEnd.processP4_16 c options program w) with
  | nullDeref w1 =>
    left
    simp only [MidEnd.process, hsub]
    trivial
  | ret v w1 =>
    cases v with
    | none =>
      left
      rw [MidEnd.process_of_null c options program w w1 hsub]
      trivial
    | some p =>
      right
      refine ⟨p, ?_⟩
      rw [MidEnd.process_of_program c options program w p w1 hsub]
      by_cases hB : 0 < c.errorCount ((MidEnd.backend options.isv1).apply c p w1).2.heap
      · simp [hB, Outcome.world]
      · simp [hB, Outcome.world]

/-- C7 as stated fails: the two pipelines do not differ in the inliner only.  The
`InlineDriver` of V1MidEnd is built with the flag `true`; the one of MidEnd,
when `process` selects `processP4_16` (`isv1` false), with the flag `false`.  So
the two drivers, the two runs of inline passes and the two lists are not the
same up to inliners and function-local objects. -/
theorem inline_passes_differ_in_flag :
    MidEnd.midend.passes[3]? = some (.fresh .InlineDriver
      [.inlineWorkList .processP4_14, .inliner .SimpleControlsInliner, .flag true]) ∧
    (MidEnd.midEnd false).passes[1]? = some (.fresh .InlineDriver
      [.inlineWorkList .processP4_16, .inliner .GeneralInliner, .flag false]) ∧
    Pass.sameBut Arg.sameButInliner
      (.fresh .InlineDriver
        [.inlineWorkList .processP4_14, .inliner .SimpleControlsInliner, .flag true])
      (.fresh .InlineDriver
        [.inlineWorkList .processP4_16, .inliner .GeneralInliner, .flag false]) = false ∧
    allPairs (Pass.sameBut Arg.sameButInliner) MidEnd.inlinePasses14
      (MidEnd.inlinePasses16 false) = false ∧
    allPairs (Pass.sameBut Arg.sameButInliner) MidEnd.midend.passes
      (MidEnd.midEnd false).passes = false := by
  refine ⟨rfl, rfl, ?_, ?_, ?_⟩ <;> decide

/-- C7, amended. `process` runs the passes of `processP4_14` exactly when
`options.isv1()` is true, and those of `processP4_16` otherwise, never both:
with `isv1` true the first pass applied is the first of V1MidEnd and every pass
applied belongs to V1MidEnd or Backend; with `isv1` false the first pass applied
is the first of Simplify and every pass applied belongs to Simplify, MidEnd or
Backend.  The drivers of V1MidEnd are handed `SimpleControlsInliner` and
`SimpleActionsInliner`, those of MidEnd `GeneralInliner` and `ActionsInliner`.
Both lists contain the same run of seven inline passes (`DiscoverInlining`,
`InlineDriver`, cleanup, `TypeChecking`, `DiscoverActionsInlining`,
`InlineActionsDriver`, cleanup); corresponding passes of the two runs differ
only in the inliner, in the function-local work-list and evaluator objects and
in the `isv1` flag (with `isv1` true, only in the first two).  Outside that run
the lists differ: V1MidEnd has two passes before it, MidEnd twenty after it. -/
theorem dialect_pipelines_compared
    (c : Collaborators Prog Block Main Heap) (options : CompilerOptions)
    (program : Prog) (w : World Heap) :
    (options.isv1 = true →
      World.ranFrom ("V1MidEnd", .fresh .TypeChecking [.refMap, .typeMap, .flag false, .flag true])
        ["V1MidEnd", "Backend"] w (MidEnd.process c options program w).world) ∧
    (options.isv1 = false →
      World.ranFrom ("Simplify", .fresh .TypeChecking [.refMap, .typeMap, .flag false, .flag false])
        ["Simplify", "MidEnd", "Backend"] w (MidEnd.process c options program w).world) ∧
    driversWithInliners MidEnd.midend.passes =
      [(.InlineDriver, [.SimpleControlsInliner]),
        (.InlineActionsDriver, [.SimpleActionsInliner])] ∧
    driversWithInliners (MidEnd.midEnd options.isv1).passes =
      [(.InlineDriver, [.GeneralInliner]), (.InlineActionsDriver, [.ActionsInliner])] ∧
    MidEnd.inlinePasses14.map Pass.kind =
      [.DiscoverInlining, .InlineDriver, .RemoveAllUnusedDeclarations, .TypeChecking,
        .DiscoverActionsInlining, .InlineActionsDriver, .RemoveAllUnusedDeclarations] ∧
    (MidEnd.inlinePasses16 options.isv1).map Pass.kind = MidEnd.inlinePasses14.map Pass.kind ∧
    allPairs (Pass.sameBut Arg.sameButInlinerAndFlag) MidEnd.inlinePasses14
      (MidEnd.inlinePasses16 options.isv1) = true ∧
    allPairs (Pass.sameBut Arg.sameButInliner) MidEnd.inlinePasses14
      (MidEnd.inlinePasses16 true) = true ∧
    MidEnd.midend.passes = MidEnd.midend.passes.take 2 ++ MidEnd.inlinePasses14 ∧
    (MidEnd.midend.passes.take 2).map Pass.kind = [.TypeChecking, .Evaluator] ∧
    ((MidEnd.midEnd options.isv1).passes.drop 7).length = 20 := by
  obtain ⟨v⟩ := options
  refine ⟨?_, ?_, by decide, by cases v <;> decide, by decide, by cases v <;> decide,
    by cases v <;> decide, by decide, by decide, by decide, by cases v <;> decide⟩
  · intro hv
    simp only at hv
    subst hv
    have hV : World.ranFrom
        ("V1MidEnd", .fresh .TypeChecking [.refMap, .typeMap, .flag false, .flag true])
        ["V1MidEnd", "Backend"] w (MidEnd.midend.apply c program w).2 :=
      World.ranFrom_mono (by simp [MidEnd.midend])
        (PassManager.apply_ranFrom c MidEnd.midend _ _ rfl program w)
    obtain ⟨r, hr⟩ := MidEnd.processP4_14_world c ⟨true⟩ program w
    rcases MidEnd.process_world c ⟨true⟩ program w with h | ⟨p, h⟩
    · rw [h]
      simpa [hr, Outcome.world] using hV
    · rw [h]
      simp only [if_true, hr, Outcome.world]
      exact World.ranFrom_trans hV (World.ranOnly_mono (by simp [MidEnd.backend])
        (PassManager.apply_ranOnly c (MidEnd.backend true) p _))
  · intro hv
    simp only at hv
    subst hv
    have hS : World.ranFrom
        ("Simplify", .fresh .TypeChecking [.refMap, .typeMap, .flag false, .flag false])
        ["Simplify", "MidEnd", "Backend"] w ((MidEnd.simplify false).apply c program w).2 :=
      World.ranFrom_mono (by simp [MidEnd.simplify])
        (PassManager.apply_ranFrom c (MidEnd.simplify false) _ _ rfl program w)
    have h16 : World.ranFrom
        ("Simplify", .fresh .TypeChecking [.refMap, .typeMap, .flag false, .flag false])
        ["Simplify", "MidEnd", "Backend"] w
        (MidEnd.processP4_16 c ⟨false⟩ program w).world := by
      rcases MidEnd.processP4_16_world c ⟨false⟩ program w with h | ⟨q, h⟩
      · rw [h]
        exact hS
      · rw [h]
        exact World.ranFrom_trans hS (World.ranOnly_mono (by simp [MidEnd.midEnd])
          (PassManager.apply_ranOnly c (MidEnd.midEnd false) q _))
    rcases MidEnd.process_world c ⟨false⟩ program w with h | ⟨p, h⟩
    · rw [h]
      simpa using h16
    · rw [h]
      simp only [Bool.false_eq_true, if_false]
      exact World.ranFrom_trans h16 (World.ranOnly_mono (by simp [MidEnd.backend])
        (PassManager.apply_ranOnly c (MidEnd.backend false) p _))

end BMV2

namespace P4

theorem MethodInstance.construct_ok (mce : Option MethodCallExpression)
    (decl : Option IDeclaration) (methodType : Option Type_MethodBase) (m : MethodInstance)
    (h : MethodInstance.construct mce decl methodType = .ok m) :
    m = { expr := mce, object := decl, methodType := methodType } ∧
      mce.isSome = true ∧ methodType.isSome = true := by
  cases mce <;> cases methodType <;>
    simp [MethodInstance.construct, CHECK_NULL, bind, Except.bind, pure, Except.pure] at h
  simp [h]

theorem MethodInstance.construct_null (mce : Option MethodCallExpression)
    (decl : Option IDeclaration) (methodType : Option Type_MethodBase)
    (h : mce = none ∨ methodType = none) :
    MethodInstance.construct mce decl methodType = .error .nullCheck := by
  cases mce <;> cases methodType <;>
    simp [MethodInstance.construct, CHECK_NULL, bind, Except.bind, pure, Except.pure] at h ⊢

theorem MethodInstance.construct_some (mce : MethodCallExpression)
    (decl : Option IDeclaration) (methodType : Type_MethodBase) :
    MethodInstance.construct (some mce) decl (some methodType) =
      .ok { expr := some mce, object := decl, methodType := some methodType } := by
  simp [MethodInstance.construct, CHECK_NULL, bind, Except.bind, pure, Except.pure]

/-- C8. What the constructors of the five variants do with null components.
`ApplyMethod` built with a null `type` dereferences it (in
`type->getApplyMethodType()`, the argument of the base constructor) before any
`CHECK_NULL` runs: the construction ends in a null dereference, not in the
rejection by the null check.  Everything else the claim says holds: an instance
that was constructed carries a non-null `expr`, a non-null `methodType`, whose
`parameters` is what `getParameters()` returns, and a non-null target; and a
null among the other components is rejected by `CHECK_NULL`. -/
theorem constructors_and_null_components :
    (∀ expr decl, ApplyMethod.construct expr decl none = .error .nullDeref) ∧
    (∀ expr decl type m, ApplyMethod.construct expr decl type = .ok m →
      m.expr = expr ∧ m.type = type ∧ m.expr.isSome = true ∧ m.type.isSome = true ∧
        ∃ t, m.methodType = some t ∧ m.toMethodInstance.getParameters = .ok t.parameters) ∧
    (∀ expr decl (t : IApply), expr = none ∨ t.getApplyMethodType = none →
      ApplyMethod.construct expr decl (some t) = .error .nullCheck) ∧
    (∀ expr decl method type methodType m,
      ExternMethod.construct expr decl method type methodType = .ok m →
      m.expr = expr ∧ m.method = method ∧ m.type = type ∧ m.methodType = methodType ∧
        m.expr.isSome = true ∧ m.method.isSome = true ∧ m.type.isSome = true ∧
        ∃ t, m.methodType = some t ∧ m.toMethodInstance.getParameters = .ok t.parameters) ∧
    (∀ expr decl method type methodType,
      expr = none ∨ methodType = none ∨ method = none ∨ type = none →
      ExternMethod.construct expr decl method type methodType = .error .nullCheck) ∧
    (∀ expr method methodType m, ExternFunction.construct expr method methodType = .ok m →
      m.expr = expr ∧ m.method = method ∧ m.methodType = methodType ∧
        m.expr.isSome = true ∧ m.method.isSome = true ∧
        ∃ t, m.methodType = some t ∧ m.toMethodInstance.getParameters = .ok t.parameters) ∧
    (∀ expr method methodType, expr = none ∨ methodType = none ∨ method = none →
      ExternFunction.construct expr method methodType = .error .nullCheck) ∧
    (∀ expr action actionType m, ActionCall.construct expr action actionType = .ok m →
      m.expr = expr ∧ m.action = action ∧ m.methodType = actionType ∧
        m.expr.isSome = true ∧ m.action.isSome = true ∧
        ∃ t, m.methodType = some t ∧ m.toMethodInstance.getParameters = .ok t.parameters) ∧
    (∀ expr action actionType, expr = none ∨ actionType = none ∨ action = none →
      ActionCall.construct expr action actionType = .error .nullCheck) ∧
    (∀ expr name appliedTo methodType m,
      BuiltInMethod.construct expr name appliedTo methodType = .ok m →
      m.expr = expr ∧ m.appliedTo = appliedTo ∧ m.methodType = methodType ∧
        m.expr.isSome = true ∧ m.appliedTo.isSome = true ∧
        ∃ t, m.methodType = some t ∧ m.toMethodInstance.getParameters = .ok t.parameters) ∧
    (∀ expr name appliedTo methodType, expr = none ∨ methodType = none ∨ appliedTo = none →
      BuiltInMethod.construct expr name appliedTo methodType = .error .nullCheck) := by
  refine ⟨?_, ?_, ?_, ?_, ?_, ?_, ?_, ?_, ?_, ?_, ?_⟩
  · intro expr decl
    rfl
  · intro expr decl type m h
    cases expr <;> cases type with
    | none => simp [ApplyMethod.construct, bind, Except.bind] at h
    | some t =>
      obtain ⟨i, mt⟩ := t
      cases mt <;>
        simp [ApplyMethod.construct, MethodInstance.construct, CHECK_NULL, bind, Except.bind,
          pure, Except.pure] at h
      all_goals
        subst h
        simp [MethodInstance.getParameters]
  · intro expr decl t h
    obtain ⟨i, mt⟩ := t
    cases expr <;> cases mt <;>
      simp [ApplyMethod.construct, MethodInstance.construct, CHECK_NULL, bind, Except.bind,
        pure, Except.pure] at h ⊢
  · intro expr decl method type methodType m h
    cases expr <;> cases method <;> cases type <;> cases methodType <;>
      simp [ExternMethod.construct, MethodInstance.construct, CHECK_NULL, bind, Except.bind,
        pure, Except.pure] at h
    all_goals
      subst h
      simp [MethodInstance.getParameters]
  · intro expr decl method type methodType h
    cases expr <;> cases method <;> cases type <;> cases methodType <;>
      simp [ExternMethod.construct, MethodInstance.construct, CHECK_NULL, bind, Except.bind,
        pure, Except.pure] at h ⊢
  · intro expr method methodType m h
    cases expr <;> cases method <;> cases methodType <;>
      simp [ExternFunction.construct, MethodInstance.construct, CHECK_NULL, bind, Except.bind,
        pure, Except.pure] at h
    all_goals
      subst h
      simp [MethodInstance.getParameters]
  · intro expr method methodType h
    cases expr <;> cases method <;> cases methodType <;>
      simp [ExternFunction.construct, MethodInstance.construct, CHECK_NULL, bind, Except.bind,
        pure, Except.pure] at h ⊢
  · intro expr action actionType m h
    cases expr <;> cases action <;> cases actionType <;>
      simp [ActionCall.construct, MethodInstance.construct, CHECK_NULL, bind, Except.bind,
        pure, Except.pure] at h
    all_goals
      subst h
      simp [MethodInstance.getParameters]
  · intro expr action actionType h
    cases expr <;> cases action <;> cases actionType <;>
      simp [ActionCall.construct, MethodInstance.construct, CHECK_NULL, bind, Except.bind,
        pure, Except.pure] at h ⊢
  · intro expr name appliedTo methodType m h
    cases expr <;> cases appliedTo <;> cases methodType <;>
      simp [BuiltInMethod.construct, MethodInstance.construct, CHECK_NULL, bind, Except.bind,
        pure, Except.pure] at h
    all_goals
      subst h
      simp [MethodInstance.getParameters]
  · intro expr name appliedTo methodType h
    cases expr <;> cases appliedTo <;> cases methodType <;>
      simp [BuiltInMethod.construct, MethodInstance.construct, CHECK_NULL, bind, Except.bind,
        pure, Except.pure] at h ⊢

/-- Constructions that succeed, one for each variant. -/
theorem constructors_succeed :
    (ApplyMethod.construct (some ⟨1⟩) none (some ⟨2, some ⟨3, none⟩⟩)).isOk = true ∧
    (ExternMethod.construct (some ⟨1⟩) none (some ⟨2⟩) (some ⟨3⟩) (some ⟨4, none⟩)).isOk = true ∧
    (ExternFunction.construct (some ⟨1⟩) (some ⟨2⟩) (some ⟨4, none⟩)).isOk = true ∧
    (ActionCall.construct (some ⟨1⟩) (some ⟨2⟩) (some ⟨4, none⟩)).isOk = true ∧
    (BuiltInMethod.construct (some ⟨1⟩) ⟨"isValid"⟩ (some (.other 2)) (some ⟨4, none⟩)).isOk =
      true := by
  refine ⟨rfl, rfl, rfl, rfl, rfl⟩

/-- C9. For every `MethodCallStatement`, `IfStatement` and `SwitchStatement` the
post-order handler of `SimplifyKey` returns exactly `doStatement(statement, e)`
with `e` the `methodCall`, the `condition`, the `expression` of the statement;
so the handler chosen by the class of the statement is the one uniform hook,
whatever `doStatement` is. -/
theorem SimplifyKey.postorder_is_uniformHook {State Node : Type}
    (doStatement : DoStatement State Node) :
    (∀ (s : MethodCallStatement) (st : State),
      SimplifyKey.postorder_MethodCallStatement doStatement s st =
        doStatement (.methodCallStatement s) (s.methodCall.map Expression.methodCall) st) ∧
    (∀ (s : IfStatement) (st : State),
      SimplifyKey.postorder_IfStatement doStatement s st =
        doStatement (.ifStatement s) s.condition st) ∧
    (∀ (s : SwitchStatement) (st : State),
      SimplifyKey.postorder_SwitchStatement doStatement s st =
        doStatement (.switchStatement s) s.expression st) ∧
    (∀ (statement : Statement) (st : State),
      SimplifyKey.postorder doStatement statement st =
        SimplifyKey.uniformHook doStatement statement st) := by
  refine ⟨fun _ _ => rfl, fun _ _ => rfl, fun _ _ => rfl, ?_⟩
  intro statement st
  cases statement <;> rfl

end P4

namespace BMV2

theorem cstring.endsWith_iff (s suffix : String) :
    cstring.endsWith s suffix = true ↔ EndsWith s suffix := by
  unfold cstring.endsWith EndsWith
  rw [List.isSuffixOf_iff_suffix]
  constructor
  · rintro ⟨front, h⟩
    exact ⟨front, h.symm⟩
  · rintro ⟨front, h⟩
    exact ⟨front, h.symm⟩

/-- C10. `EnumOn32Bits::convert` returns false exactly when the enum type has
valid source information and the name of the file that holds its start line
ends with the name of the v1model library file; in every other case it returns
true, in particular for a type without valid source information. -/
theorem EnumOn32Bits.convert_false_iff (src : Sources) (type : Type_Enum) :
    (EnumOn32Bits.convert src type = false ↔
      type.srcInfo.isValid = true ∧
        EndsWith (src.getSourceLine type.srcInfo.getStart.lineNumber).fileName
          src.v1modelFileName) ∧
    (EnumOn32Bits.convert src type = true ↔
      ¬ (type.srcInfo.isValid = true ∧
        EndsWith (src.getSourceLine type.srcInfo.getStart.lineNumber).fileName
          src.v1modelFileName)) ∧
    (type.srcInfo.isValid = false → EnumOn32Bits.convert src type = true) := by
  have key : EnumOn32Bits.convert src type = false ↔
      type.srcInfo.isValid = true ∧
        EndsWith (src.getSourceLine type.srcInfo.getStart.lineNumber).fileName
          src.v1modelFileName := by
    rw [← cstring.endsWith_iff]
    unfold EnumOn32Bits.convert
    cases hv : type.srcInfo.isValid <;>
      cases he : cstring.endsWith
        (src.getSourceLine type.srcInfo.getStart.lineNumber).fileName src.v1modelFileName <;>
      simp [he]
  refine ⟨key, ?_, ?_⟩
  · rw [← key]
    simp
  · intro hv
    simp [EnumOn32Bits.convert, hv]

/-- `convert` evaluated: an enum of the library file is not converted, an enum
of the user's program is, and so is an enum without valid source information,
whatever its line. -/
theorem EnumOn32Bits.convert_examples :
    EnumOn32Bits.convert Toy.sources ⟨⟨true, ⟨42⟩⟩⟩ = false ∧
    EnumOn32Bits.convert Toy.sources ⟨⟨true, ⟨120⟩⟩⟩ = true ∧
    EnumOn32Bits.convert Toy.sources ⟨⟨false, ⟨42⟩⟩⟩ = true := by
  refine ⟨by decide, by decide, by decide⟩

end BMV2

namespace BMV2

variable {Prog Block Main Heap : Type}

theorem MidEnd.processP4_16_no_main (c : Collaborators Prog Block Main Heap)
    (options : CompilerOptions) (program : Prog) (w : World Heap) (toplevel : Block)
    (ht : c.getToplevelBlock .processP4_16
      ((MidEnd.simplify options.isv1).apply c program w).2.heap = some toplevel)
    (hm : c.getMain toplevel = none) :
    MidEnd.processP4_16 c options program w =
      .ret none ((MidEnd.simplify options.isv1).apply c program w).2 := by
  unfold MidEnd.processP4_16
  by_cases he : 0 < c.errorCount ((MidEnd.simplify options.isv1).apply c program w).2.heap
  · simp [he]
  · simp [he, ht, hm]

/-- C11. When the toplevel block that the evaluator of `processP4_16` holds at the
end of Simplify has no main, `processP4_16` returns null in the world Simplify
left, whatever the error count, zero included: only Simplify passes were
applied, none of MidEnd.  With `options.isv1()` false, `process` then returns
null in that same world.  So a null result does not imply a nonzero error
count: there are collaborators, a program and a start for which no pass of
Simplify leaves a nonzero count and `process` returns null with the count at
zero. -/
theorem MidEnd.null_result_without_main
    (c : Collaborators Prog Block Main Heap) (options : CompilerOptions)
    (program : Prog) (w : World Heap) (toplevel : Block)
    (ht : c.getToplevelBlock .processP4_16
      ((MidEnd.simplify options.isv1).apply c program w).2.heap = some toplevel)
    (hm : c.getMain toplevel = none) :
    MidEnd.processP4_16 c options program w =
        .ret none ((MidEnd.simplify options.isv1).apply c program w).2 ∧
      World.ranOnly ["Simplify"] w ((MidEnd.simplify options.isv1).apply c program w).2 ∧
      (options.isv1 = false →
        MidEnd.process c options program w =
          .ret none ((MidEnd.simplify options.isv1).apply c program w).2) ∧
      ∃ (c0 : Collaborators Nat Nat Unit Toy.Store) (p0 : Nat) (w0 w1 : World Toy.Store),
        c0.errorCount w0.heap = 0 ∧
        staysZero c0 (MidEnd.simplify false).passes p0 w0.heap = true ∧
        MidEnd.process c0 ⟨false⟩ p0 w0 = .ret none w1 ∧
        c0.errorCount w1.heap = 0 := by
  have h16 := MidEnd.processP4_16_no_main c options program w toplevel ht hm
  refine ⟨h16, PassManager.apply_ranOnly c (MidEnd.simplify options.isv1) program w, ?_, ?_⟩
  · intro hv
    apply MidEnd.process_of_null
    simp only [hv, Bool.false_eq_true, if_false]
    rw [← hv]
    exact h16
  · exact ⟨Toy.collaborators, 7, Toy.start,
      ((MidEnd.simplify false).apply Toy.collaborators 7 Toy.start).2, rfl, by decide, rfl,
      by decide⟩

/-- C11, at the toy instance: on program 7 no pass reports an error, the block
computed at the end of Simplify is block 7, which has no main, and `process`
returns null in the world Simplify left, where the error count is zero. -/
theorem MidEnd.null_result_without_main_witness :
    MidEnd.process Toy.collaborators ⟨false⟩ 7 Toy.start =
        .ret none ((MidEnd.simplify false).apply Toy.collaborators 7 Toy.start).2 ∧
      Toy.collaborators.errorCount
        ((MidEnd.simplify false).apply Toy.collaborators 7 Toy.start).2.heap = 0 ∧
      World.ranOnly ["Simplify"] Toy.start
        ((MidEnd.simplify false).apply Toy.collaborators 7 Toy.start).2 :=
  ⟨(MidEnd.null_result_without_main Toy.collaborators ⟨false⟩ 7 Toy.start 7 rfl rfl).2.2.1 rfl,
    by decide,
    (MidEnd.null_result_without_main Toy.collaborators ⟨false⟩ 7 Toy.start 7 rfl rfl).2.1⟩

end BMV2

namespace pie

end pie
